import Mathlib

/-!
# gcode: airfoil coordinate files to a G-code program

A shallow embedding of `gcode.c` / `gcode.h`.  The program state (the global
`thisVector` table, the text written to `OUTPUT.txt`, the text written to the
standard error stream) is passed explicitly; `exit(EXIT_FAILURE)` is the error
branch of `Except`.  The C library routines the program calls (`fscanf` with
`%d` and `%f`, `fprintf` with `%s` and `%f`) are given executable models that
follow ISO C, with the IEEE binary32 `float` carried as sign, mantissa and
binary exponent.

Conventions of the model: the output file opens and every write to it succeeds;
the memory a `value` pointer addresses is a total map from indices to `float`
values whose initial content is given by the environment, so a read of a slot
that was never written (or that lies past the declared count) yields an
indeterminate value instead of stopping the program; each vector records as
`capacity` the number of elements of the buffer `AllocateMemory` obtained for
it, and `OutputGCodeChecked` is the emitter with every array read checked
against that number; the `atexit` handlers, which only release resources, are
left out.
-/

namespace GCode

/-! ## gcode.h: enumerations and their string tables -/

inductive Side where
  | Root
  | Tip
  deriving DecidableEq

inductive Half where
  | Upper
  | Lower
  deriving DecidableEq

inductive Dimension where
  | X
  | Y
  deriving DecidableEq

def SideToString : Side → String
  | .Root => "ROOT"
  | .Tip => "TIP"

def HalfToString : Half → String
  | .Upper => "UPPER"
  | .Lower => "LOWER"

def DimensionToString : Dimension → String
  | .X => "X"
  | .Y => "Y"

/-! ## Floating-point values -/

/-- A C `float`/`double` value: a finite value `(-1)^neg * m * 2^e`, an
infinity, or a NaN.  The sign of a zero and of a NaN is kept because `%f`
prints it. -/
inductive CFloat where
  | finite (neg : Bool) (m : Nat) (e : Int)
  | inf (neg : Bool)
  | nan (neg : Bool)
  deriving DecidableEq

/-- Number of binary digits of `n` (`0` for `0`); the first argument is fuel. -/
def bitLenAux : Nat → Nat → Nat
  | 0, _ => 0
  | fuel + 1, n => if n = 0 then 0 else 1 + bitLenAux fuel (n / 2)

def bitLen (n : Nat) : Nat := bitLenAux n n

/-- Quotient `num / den` rounded to an integer, ties to even. -/
def divRoundEven (num den : Nat) : Nat :=
  let q := num / den
  let r := num % den
  if den < 2 * r ∨ (2 * r = den ∧ q % 2 = 1) then q + 1 else q

/-- The rational `num / den` divided by `2^t` and rounded to an integer, ties
to even. -/
def roundAt (num den : Nat) (t : Int) : Nat :=
  match t with
  | Int.ofNat k => divRoundEven num (den * 2 ^ k)
  | Int.negSucc k => divRoundEven (num * 2 ^ (k + 1)) den

/-- Whether `2^t ≤ num / den`. -/
def geTwoPow (num den : Nat) (t : Int) : Bool :=
  match t with
  | Int.ofNat k => decide (den * 2 ^ k ≤ num)
  | Int.negSucc k => decide (den ≤ num * 2 ^ (k + 1))

/-- Round the non-negative rational `num / den` (`den > 0`) to the nearest
IEEE binary32 value, ties to even: 24 significant bits, least exponent `-149`,
overflow to infinity from `2^128` on.  This is the rounding of `strtof` and of
the conversion from `double` to `float`. -/
def roundF32 (neg : Bool) (num den : Nat) : CFloat :=
  if num = 0 then .finite neg 0 0
  else
    let lb : Int := (bitLen num : Int) - (bitLen den : Int)
    -- floor (log2 (num / den)) is lb or lb - 1
    let l : Int := if geTwoPow num den lb then lb else lb - 1
    let t : Int := max (l - 23) (-149)
    let q := roundAt num den t
    if 128 ≤ (bitLen q : Int) - 1 + t then .inf neg else .finite neg q t

/-- The product `x * 5.0` of `value[thisValue] *= XYUV_COORDINATE_SCALAR`: the
`float` is promoted to `double`, multiplied (exactly, 24 bits by 3 bits) and
converted back to `float`. -/
def CFloat.scale (k : Nat) : CFloat → CFloat
  | .finite neg m e =>
    match e with
    | Int.ofNat j => roundF32 neg (k * m * 2 ^ j) 1
    | Int.negSucc j => roundF32 neg (k * m) (2 ^ (j + 1))
  | .inf neg => .inf neg
  | .nan neg => .nan neg

/-- Whether the value is finite (neither an infinity nor a NaN). -/
def CFloat.isFinite : CFloat → Bool
  | .finite _ _ _ => true
  | _ => false

/-! ## `%f` and `%s`: the part of `fprintf` the program uses -/

def decDigit : Nat → Char
  | 0 => '0'
  | 1 => '1'
  | 2 => '2'
  | 3 => '3'
  | 4 => '4'
  | 5 => '5'
  | 6 => '6'
  | 7 => '7'
  | 8 => '8'
  | _ => '9'

/-- Decimal digits of `n`, most significant first, in front of `acc`; the first
argument is fuel. -/
def decDigitsAux : Nat → Nat → List Char → List Char
  | 0, _, acc => acc
  | fuel + 1, n, acc =>
    if n < 10 then decDigit n :: acc
    else decDigitsAux fuel (n / 10) (decDigit (n % 10) :: acc)

def decDigits (n : Nat) : List Char := decDigitsAux (n + 1) n []

/-- The six digits after the decimal point, for `n < 10^6`. -/
def frac6 (n : Nat) : List Char :=
  [decDigit (n / 100000 % 10), decDigit (n / 10000 % 10), decDigit (n / 1000 % 10),
   decDigit (n / 100 % 10), decDigit (n / 10 % 10), decDigit (n % 10)]

/-- The value `m * 2^e * 10^6` rounded to an integer, ties to even. -/
def scaled6 (m : Nat) (e : Int) : Nat :=
  match e with
  | Int.ofNat k => m * 2 ^ k * 1000000
  | Int.negSucc k => divRoundEven (m * 1000000) (2 ^ (k + 1))

/-- What `%f` prints for a `double` argument: sign, integer part, a point and
six digits for a finite value (correctly rounded), `inf` / `nan` with the sign
otherwise. -/
def fmtF : CFloat → String
  | .finite neg m e =>
    let n := scaled6 m e
    ⟨(if neg then ['-'] else []) ++ decDigits (n / 1000000) ++ '.' :: frac6 (n % 1000000)⟩
  | .inf neg => if neg then "-inf" else "inf"
  | .nan neg => if neg then "-nan" else "nan"

/-- An argument of a `fprintf` call. -/
inductive Arg where
  | str (s : String)
  | dbl (x : CFloat)

/-- Expansion of a format string: `%s` takes a string argument, `%f` a
`double` argument, every other character is copied. -/
def formatAux : List Char → List Arg → List Char
  | [], _ => []
  | '%' :: 's' :: fmt, Arg.str s :: args => s.data ++ formatAux fmt args
  | '%' :: 'f' :: fmt, Arg.dbl x :: args => (fmtF x).data ++ formatAux fmt args
  | c :: fmt, args => c :: formatAux fmt args

def format (fmt : String) (args : List Arg) : String := ⟨formatAux fmt.data args⟩

/-! ## gcode.h: constants -/

def OUTPUT_FILENAME : String := "OUTPUT.txt"

def GCODE_MOVE_COMMAND : String := "G1"
def GCODE_FEEDRATE : String := "F0.60"

def X_MIN : CFloat := .finite true 12 0
def Y_MIN : CFloat := .finite true 12 0
def X_MAX : CFloat := .finite false 12 0
def Y_MAX : CFloat := .finite false 12 0

/-- The scalar `5.0`. -/
def XYUV_COORDINATE_SCALAR : Nat := 5

/-- A format string with its arguments, as the `GCODE_*` defines expand inside
`fprintf(outputFile, ...)`. -/
abbrev FormatCall := String × List Arg

def GCODE_HEADER : FormatCall :=
  ("(Initialize)\nG20\nG90\n\n(Wire reset)\nG0 X%f U%f\nG0 Y%f V%f\n\n(Knock slew)\nG0 X%f U%f\nG0 Y%f V%f\nG0 X%f U%f\nG0 Y%f V%f\n\n(Begin airfoil upper half)\n",
   [.dbl Y_MIN, .dbl X_MIN, .dbl Y_MIN, .dbl X_MIN, .dbl X_MAX, .dbl X_MAX, .dbl Y_MAX,
    .dbl Y_MAX, .dbl X_MIN, .dbl X_MIN, .dbl Y_MIN, .dbl Y_MIN])

def GCODE_FOOTER : FormatCall :=
  ("(End airfoil lower half)\n\n(Wire reset)\n%s X%f U%f\nG0 Y%f V%f\nG0 X%f U%f\nG0 Y%f V%f\n\n(Stop)\nM30",
   [.str GCODE_MOVE_COMMAND, .dbl X_MAX, .dbl X_MAX, .dbl Y_MAX, .dbl Y_MAX, .dbl X_MIN,
    .dbl X_MIN, .dbl Y_MIN, .dbl Y_MIN])

def GCODE_UPPERLOWER_TRANSITION : FormatCall :=
  ("(End airfoil upper half)\n\n(Wire reset)\n%s X%f U%f\nG0 Y%f V%f\nG0 X%f U%f\nG0 Y%f V%f\n\n(Begin airfoil lower half)\n",
   [.str GCODE_MOVE_COMMAND, .dbl X_MAX, .dbl X_MAX, .dbl Y_MAX, .dbl Y_MAX, .dbl X_MIN,
    .dbl X_MIN, .dbl Y_MIN, .dbl Y_MIN])

def MESSAGE_ERROR : String := "* Oops -- Can't "
def MESSAGE_FILE_OPENERROR : String := "open %s. Are all vector files present?\n"
def MESSAGE_FILE_READERROR : String := "read %s. The first line should be the 'Total Values'.\n"
def MESSAGE_FILE_WRITEERROR : String := "write to %s. Is the file in-use or the disk full?\n"
def MESSAGE_MEMORY_ALLOCERROR : String := "allocate memory for that many data points!\n"

def MESSAGE_WARNING : String := "* Note: You should "
def MESSAGE_VECTOR_CONSISTENCY : String :=
  "ensure all vector files list the same number of data points\n"
def MESSAGE_VECTOR_EOF : String :=
  "check all vector files for the listed number of data points\n"

/-! ## `%d` and `%f`: the part of `fscanf` the program uses

An input item is the longest prefix of the stream that is, or is a prefix of, a
matching sequence (ISO C 7.21.6.2); the character after it stays unread. -/

def EOF : Int := -1

/-- What one `fscanf` call with a single conversion did: its return value
(`EOF`, `0` on a matching failure, `1` on success), the value stored through
the pointer (`none` when nothing was stored) and the unread rest of the
stream. -/
structure Scan (α : Type) where
  result : Int
  assigned : Option α
  rest : List Char

def isSpace (c : Char) : Bool :=
  c = ' ' || c = '\t' || c = '\n' || c = '\x0b' || c = '\x0c' || c = '\r'

def isHexDigit (c : Char) : Bool :=
  c.isDigit || ('a' ≤ c && c ≤ 'f') || ('A' ≤ c && c ≤ 'F')

def hexVal (c : Char) : Nat :=
  if c.isDigit then c.toNat - 48
  else if 'a' ≤ c && c ≤ 'f' then c.toNat - 87
  else c.toNat - 55

/-- Value of a digit string in the given base, continuing from `acc`. -/
def digitsVal (base : Nat) (ds : List Char) (acc : Nat) : Nat :=
  ds.foldl (fun a c => base * a + hexVal c) acc

/-- An optional sign: whether it is `-`, and the stream after it. -/
def takeSign : List Char → Bool × List Char
  | '-' :: cs => (true, cs)
  | '+' :: cs => (false, cs)
  | cs => (false, cs)

/-- The `long` that the conversion of a digit string yields: the value itself,
or `LONG_MIN` / `LONG_MAX` (64 bits) when it lies outside the range of `long`. -/
def saturateLong (v : Int) : Int := max (-(2 ^ 63)) (min v (2 ^ 63 - 1))

/-- The `int` stored for a `long`: its low 32 bits in two's complement. -/
def toInt32 (v : Int) : Int := (v + 2 ^ 31) % 2 ^ 32 - 2 ^ 31

/-- Model of `fscanf(f, "%d", &n)` on the unread stream `inp`.  ISO C leaves a
value outside the range of `int` undefined; the C library converts the digits
to a `long`, saturating at its range, and stores the low 32 bits. -/
def scanInt (inp : List Char) : Scan Int :=
  match inp.dropWhile isSpace with
  | [] => ⟨EOF, none, []⟩
  | c :: cs =>
    let (neg, body) := takeSign (c :: cs)
    let (ds, rest) := body.span Char.isDigit
    if ds = [] then ⟨0, none, body⟩
    else
      let n : Int := digitsVal 10 ds 0
      ⟨1, some (toInt32 (saturateLong (if neg then -n else n))), rest⟩

/-- An optional exponent part introduced by one of the two marker characters:
`none` when the marker is there but no digit follows (the item is then not a
matching sequence), else the exponent and the stream after it. -/
def takeExponent (lower upper : Char) (inp : List Char) : Option (Int × List Char) :=
  match inp with
  | [] => some (0, [])
  | c :: cs =>
    if c = lower ∨ c = upper then
      let (neg, body) := takeSign cs
      let (ds, rest) := body.span Char.isDigit
      if ds = [] then none
      else
        let n : Int := digitsVal 10 ds 0
        some (if neg then -n else n, rest)
    else some (0, c :: cs)

/-- The stream after a failed exponent: the marker, the sign and nothing else
were consumed. -/
def afterBadExponent (inp : List Char) : List Char := (takeSign inp.tail).2

/-- The `float` nearest to `mant * base^e`. -/
def floatOf (neg : Bool) (mant base : Nat) (e : Int) : CFloat :=
  match e with
  | Int.ofNat k => roundF32 neg (mant * base ^ k) 1
  | Int.negSucc k => roundF32 neg mant (base ^ (k + 1))

/-- A decimal or hexadecimal floating constant after the sign (and after `0x`). -/
def scanNumber (neg : Bool) (hex : Bool) (body : List Char) : Scan CFloat :=
  let isDig : Char → Bool := if hex then isHexDigit else Char.isDigit
  let (ip, r1) := body.span isDig
  let (fp, r2) :=
    match r1 with
    | '.' :: r => r.span isDig
    | _ => ([], r1)
  if ip = [] ∧ fp = [] then ⟨0, none, r2⟩
  else
    match (if hex then takeExponent 'p' 'P' r2 else takeExponent 'e' 'E' r2) with
    | none => ⟨0, none, afterBadExponent r2⟩
    | some (e, rest) =>
      let mant := digitsVal (if hex then 16 else 10) (ip ++ fp) 0
      if hex then ⟨1, some (floatOf neg mant 2 (e - 4 * (fp.length : Int))), rest⟩
      else ⟨1, some (floatOf neg mant 10 (e - (fp.length : Int))), rest⟩

/-- Consume the longest prefix of `word` (compared without case) that the
stream starts with: the number of characters matched and the stream after. -/
def matchWord : List Char → List Char → Nat × List Char
  | w :: ws, c :: cs =>
    if c.toLower = w then
      let (n, rest) := matchWord ws cs
      (n + 1, rest)
    else (0, c :: cs)
  | _, cs => (0, cs)

/-- Model of `fscanf(f, "%f", &x)` on the unread stream `inp`: white space is
skipped, then the subject sequence of `strtof` is read (decimal or hexadecimal
constant, `inf`, `infinity`, `nan`, `nan(...)`, each with an optional sign). -/
def scanFloat (inp : List Char) : Scan CFloat :=
  match inp.dropWhile isSpace with
  | [] => ⟨EOF, none, []⟩
  | c :: cs =>
    let (neg, body) := takeSign (c :: cs)
    match body with
    | [] => ⟨0, none, []⟩
    | b :: bs =>
      if b.toLower = 'i' then
        let (n, rest) := matchWord "infinity".data body
        if n = 3 ∨ n = 8 then ⟨1, some (.inf neg), rest⟩ else ⟨0, none, rest⟩
      else if b.toLower = 'n' then
        let (n, rest) := matchWord "nan".data body
        if n = 3 then
          match rest with
          | '(' :: r =>
            match r.dropWhile (fun x => x.isAlphanum || x = '_') with
            | ')' :: r2 => ⟨1, some (.nan neg), r2⟩
            | r2 => ⟨0, none, r2⟩
          | _ => ⟨1, some (.nan neg), rest⟩
        else ⟨0, none, rest⟩
      else if b = '0' ∧ (bs.head? = some 'x' ∨ bs.head? = some 'X') then
        scanNumber neg true bs.tail
      else scanNumber neg false body

/-! ## Program state -/

/-- The `Vector` struct: the input stream (its unread part), the declared
number of values, and the memory `value` points to, read by index.  Memory at
an index that was never written holds an indeterminate `float`.  `capacity` is
the number of `float` elements of the buffer `value` points to (`0` for the
null pointer): the size `AllocateMemory` requested from `malloc`. -/
structure Vector where
  inputFile : List Char
  totalValues : Int
  value : Nat → CFloat
  capacity : Nat

/-- The world outside the program: which files `fopen(name, "r")` can open and
what they contain, and what `malloc` returns for the buffer of each vector
(`none` for `NULL`, else the block with its indeterminate initial content). -/
structure Env where
  fopen : String → Option String
  malloc : Side → Half → Dimension → Option (Nat → CFloat)

/-- The globals `thisVector` and `outputFile` (the text written to
`OUTPUT.txt` so far) and the text written to the standard error stream. -/
structure State where
  thisVector : Side → Half → Dimension → Vector
  outputFile : String
  stderr : String

def EXIT_SUCCESS : Int := 0
def EXIT_FAILURE : Int := 1

/-- The assignment `thisVector[a][h][d] = v`. -/
def setVector (tv : Side → Half → Dimension → Vector) (a : Side) (h : Half) (d : Dimension)
    (v : Vector) : Side → Half → Dimension → Vector :=
  fun a' h' d' => if a' = a ∧ h' = h ∧ d' = d then v else tv a' h' d'

/-- Call `fprintf(stderr, fmt, args...)`. -/
def fprintfErr (fmt : String) (args : List Arg) (s : State) : State :=
  { s with stderr := s.stderr ++ format fmt args }

/-- Call `fprintf(outputFile, fmt, args...)`: every write succeeds and returns
the number of characters written. -/
def fprintfOut (call : FormatCall) (s : State) : Int × State :=
  let text := format call.1 call.2
  ((text.length : Int), { s with outputFile := s.outputFile ++ text })

/-- A loop over the values of an enumeration whose body may call `exit`. -/
def forEachM {α : Type} : List α → (α → State → Except State State) → State → Except State State
  | [], _, s => .ok s
  | x :: xs, body, s =>
    match body x s with
    | .ok s1 => forEachM xs body s1
    | .error s1 => .error s1

/-- A loop over the values of an enumeration. -/
def forEach {α : Type} : List α → (α → State → State) → State → State
  | [], _, s => s
  | x :: xs, body, s => forEach xs body (body x s)

/-- Static storage is zero-initialised: null pointers and counts of zero. -/
def initState : State :=
  { thisVector := fun _ _ _ => ⟨[], 0, fun _ => .finite false 0 0, 0⟩
    outputFile := ""
    stderr := "" }

/-! ## gcode.c -/

/-- Body of the innermost loop of `OpenDataFiles`. -/
def openBody (env : Env) (thisSide : Side) (thisHalf : Half) (thisDimension : Dimension)
    (s : State) : Except State State :=
  let filename := SideToString thisSide ++ HalfToString thisHalf ++ DimensionToString thisDimension
  match env.fopen filename with
  | none =>
    .error (fprintfErr MESSAGE_FILE_OPENERROR [.str filename] (fprintfErr MESSAGE_ERROR [] s))
  | some content =>
    let v := s.thisVector thisSide thisHalf thisDimension
    let r := scanInt content.data
    let v1 : Vector :=
      { v with inputFile := r.rest, totalValues := r.assigned.getD v.totalValues }
    let s1 := { s with thisVector := setVector s.thisVector thisSide thisHalf thisDimension v1 }
    if v1.totalValues ≤ 0 then
      .error (fprintfErr MESSAGE_FILE_READERROR [.str filename] (fprintfErr MESSAGE_ERROR [] s1))
    else .ok s1

/-- `OpenDataFiles()`: opens (and truncates) the output file, then opens each
input file and reads its first value, the declared number of values.  The
`error` branch is `exit(EXIT_FAILURE)`. -/
def OpenDataFiles (env : Env) (s : State) : Except State State :=
  forEachM [Side.Root, Side.Tip] (fun thisSide =>
    forEachM [Half.Upper, Half.Lower] (fun thisHalf =>
      forEachM [Dimension.X, Dimension.Y] (fun thisDimension =>
        openBody env thisSide thisHalf thisDimension)))
    { s with outputFile := "" }

/-- Body of the innermost loop of `AllocateMemory`: the call
`malloc(totalValues * sizeof(float))`, a buffer of `totalValues` elements. -/
def allocBody (env : Env) (thisSide : Side) (thisHalf : Half) (thisDimension : Dimension)
    (s : State) : Except State State :=
  let v := s.thisVector thisSide thisHalf thisDimension
  match env.malloc thisSide thisHalf thisDimension with
  | none =>
    .error (fprintfErr MESSAGE_MEMORY_ALLOCERROR [] (fprintfErr MESSAGE_ERROR [] s))
  | some block =>
    .ok { s with thisVector :=
            (setVector s.thisVector thisSide thisHalf thisDimension
              { v with value := block, capacity := v.totalValues.toNat }) }

/-- `AllocateMemory()`. -/
def AllocateMemory (env : Env) (s : State) : Except State State :=
  forEachM [Side.Root, Side.Tip] (fun thisSide =>
    forEachM [Half.Upper, Half.Lower] (fun thisHalf =>
      forEachM [Dimension.X, Dimension.Y] (fun thisDimension =>
        allocBody env thisSide thisHalf thisDimension))) s

/-- `CheckVectorConsistency()`. -/
def CheckVectorConsistency (s : State) : State :=
  let reference := (s.thisVector .Tip .Lower .Y).totalValues
  if !((s.thisVector .Root .Upper .X).totalValues == reference
      && (s.thisVector .Root .Upper .Y).totalValues == reference
      && (s.thisVector .Root .Lower .X).totalValues == reference
      && (s.thisVector .Root .Lower .Y).totalValues == reference
      && (s.thisVector .Tip .Upper .X).totalValues == reference
      && (s.thisVector .Tip .Upper .Y).totalValues == reference
      && (s.thisVector .Tip .Lower .X).totalValues == reference) then
    fprintfErr MESSAGE_VECTOR_CONSISTENCY [] (fprintfErr MESSAGE_WARNING [] s)
  else s

/-- The loop `for (thisValue = 0; thisValue < totalValues; thisValue++)` of
`ReadVectorData`, with `remaining` iterations left at index `thisValue`. -/
def readLoop (thisSide : Side) (thisHalf : Half) (thisDimension : Dimension) :
    (remaining : Nat) → (thisValue : Nat) → State → State
  | 0, _, s => s
  | remaining + 1, thisValue, s =>
    let v := s.thisVector thisSide thisHalf thisDimension
    let r := scanFloat v.inputFile
    -- fscanf stores through the pointer only when the conversion succeeds
    let read := r.assigned.getD (v.value thisValue)
    let v1 : Vector :=
      { v with inputFile := r.rest
               value := Function.update v.value thisValue (read.scale XYUV_COORDINATE_SCALAR) }
    let s1 := { s with thisVector := setVector s.thisVector thisSide thisHalf thisDimension v1 }
    if r.result = EOF then
      fprintfErr MESSAGE_VECTOR_EOF [] (fprintfErr MESSAGE_WARNING [] s1)
    else readLoop thisSide thisHalf thisDimension remaining (thisValue + 1) s1

/-- `ReadVectorData()`. -/
def ReadVectorData (s : State) : State :=
  forEach [Side.Root, Side.Tip] (fun thisSide =>
    forEach [Half.Upper, Half.Lower] (fun thisHalf =>
      forEach [Dimension.X, Dimension.Y] (fun thisDimension s =>
        readLoop thisSide thisHalf thisDimension
          (s.thisVector thisSide thisHalf thisDimension).totalValues.toNat 0 s))) s

/-- One iteration of a cutting loop of `OutputGCode`: the two `fprintf` calls. -/
def cutBody (thisHalf : Half) (thisValue : Nat) (s : State) : State :=
  let s1 := (fprintfOut ("%s %s %s%f %s%f ",
    [.str GCODE_MOVE_COMMAND, .str GCODE_FEEDRATE,
     .str (DimensionToString .X), .dbl ((s.thisVector .Root thisHalf .X).value thisValue),
     .str (DimensionToString .Y), .dbl ((s.thisVector .Root thisHalf .Y).value thisValue)]) s).2
  (fprintfOut ("U%f V%f\n",
    [.dbl ((s1.thisVector .Tip thisHalf .X).value thisValue),
     .dbl ((s1.thisVector .Tip thisHalf .Y).value thisValue)]) s1).2

/-- A cutting loop `for (thisValue = 0; thisValue < totalValues; thisValue++)`
of `OutputGCode`, with `remaining` iterations left at index `thisValue`. -/
def cutLoop (thisHalf : Half) : (remaining : Nat) → (thisValue : Nat) → State → State
  | 0, _, s => s
  | remaining + 1, thisValue, s =>
    cutLoop thisHalf remaining (thisValue + 1) (cutBody thisHalf thisValue s)

/-- `OutputGCode()`.  The `error` branch is `exit(EXIT_FAILURE)`. -/
def OutputGCode (s : State) : Except State State :=
  let s1 := (fprintfOut GCODE_HEADER s).2
  let s2 := cutLoop .Upper (s1.thisVector .Tip .Upper .X).totalValues.toNat 0 s1
  let s3 := (fprintfOut GCODE_UPPERLOWER_TRANSITION s2).2
  let s4 := cutLoop .Lower (s3.thisVector .Tip .Lower .X).totalValues.toNat 0 s3
  let (result, s5) := fprintfOut GCODE_FOOTER s4
  if result < 0 then
    .error (fprintfErr MESSAGE_FILE_WRITEERROR [.str OUTPUT_FILENAME]
      (fprintfErr MESSAGE_ERROR [] s5))
  else .ok s5

/-- Everything `main` does before `OutputGCode`: the Loader and the
consistency check. -/
def load (env : Env) : Except State State :=
  match OpenDataFiles env initState with
  | .error s => .error s
  | .ok s =>
    match AllocateMemory env (CheckVectorConsistency s) with
    | .error s => .error s
    | .ok s => .ok (ReadVectorData s)

/-- The program: exit status and final state. -/
def main (env : Env) : Int × State :=
  match load env with
  | .error s => (EXIT_FAILURE, s)
  | .ok s =>
    match OutputGCode s with
    | .error s => (EXIT_FAILURE, s)
    | .ok s => (EXIT_SUCCESS, s)

/-- The eight file names. -/
def fileNames : List String :=
  ["ROOTUPPERX", "ROOTUPPERY", "ROOTLOWERX", "ROOTLOWERY",
   "TIPUPPERX", "TIPUPPERY", "TIPLOWERX", "TIPLOWERY"]

/-- A block of zeroes, as a fresh page from the operating system is. -/
def zeroBlock : Nat → CFloat := fun _ => .finite false 0 0

/-- Scenario S1: each of the eight files contains a count of 1 and the sample 0.0. -/
def envS1 : Env :=
  { fopen := fun name => if name ∈ fileNames then some "1\n0.0\n" else none
    malloc := fun _ _ _ => some zeroBlock }

/-! ## The output as the specification words it -/

namespace Spec

/-- Header literal of the specification, constants expanded with six decimals. -/
def headerBlock : String :=
  "(Initialize)\nG20\nG90\n\n(Wire reset)\nG0 X-12.000000 U-12.000000\nG0 Y-12.000000 V-12.000000\n\n(Knock slew)\nG0 X12.000000 U12.000000\nG0 Y12.000000 V12.000000\nG0 X-12.000000 U-12.000000\nG0 Y-12.000000 V-12.000000\n\n(Begin airfoil upper half)\n"

/-- Transition literal of the specification, constants expanded. -/
def transitionBlock : String :=
  "(End airfoil upper half)\n\n(Wire reset)\nG1 X12.000000 U12.000000\nG0 Y12.000000 V12.000000\nG0 X-12.000000 U-12.000000\nG0 Y-12.000000 V-12.000000\n\n(Begin airfoil lower half)\n"

/-- Footer literal of the specification, constants expanded. -/
def footerBlock : String :=
  "(End airfoil lower half)\n\n(Wire reset)\nG1 X12.000000 U12.000000\nG0 Y12.000000 V12.000000\nG0 X-12.000000 U-12.000000\nG0 Y-12.000000 V-12.000000\n\n(Stop)\nM30"

/-- The text `G1 F0.60 X<rx> Y<ry> U<tx> V<ty>` of the cutting line for index
`i` of a half, without its newline. -/
def cuttingLineText (tv : Side → Half → Dimension → Vector) (h : Half) (i : Nat) : String :=
  "G1 F0.60 X" ++ fmtF ((tv .Root h .X).value i) ++ " Y" ++ fmtF ((tv .Root h .Y).value i)
    ++ " U" ++ fmtF ((tv .Tip h .X).value i) ++ " V" ++ fmtF ((tv .Tip h .Y).value i)

/-- A cutting line with its newline. -/
def cuttingLine (tv : Side → Half → Dimension → Vector) (h : Half) (i : Nat) : String :=
  cuttingLineText tv h i ++ "\n"

/-- Concatenation of a list of texts, in order. -/
def concat (xs : List String) : String := xs.foldr (fun a b => a ++ b) ""

/-- The cutting lines for the indices `0, 1, ..., n - 1` of a half, ascending. -/
def cuttingLines (tv : Side → Half → Dimension → Vector) (h : Half) (n : Nat) : String :=
  concat ((List.range n).map (cuttingLine tv h))

/-- Header, upper lines, transition, lower lines, footer: the five phases in
order, the loop bounds being the declared counts of (Tip, Upper, X) and
(Tip, Lower, X). -/
def gcodeText (tv : Side → Half → Dimension → Vector) : String :=
  headerBlock ++ cuttingLines tv .Upper (tv .Tip .Upper .X).totalValues.toNat
    ++ transitionBlock ++ cuttingLines tv .Lower (tv .Tip .Lower .X).totalValues.toNat
    ++ footerBlock

/-- The pieces of a text between its newline characters. -/
def splitLines : List Char → List (List Char)
  | [] => [[]]
  | c :: cs =>
    if c = '\n' then [] :: splitLines cs
    else
      match splitLines cs with
      | l :: ls => (c :: l) :: ls
      | [] => [[c]]

/-- The lines of a text, in order; line `k` counted from 1 is entry `k - 1`. -/
def lines (text : String) : List String := (splitLines text.data).map String.mk

/-- A line beginning `G1 F0.60 `. -/
def isCuttingLine (l : String) : Bool := "G1 F0.60 ".data.isPrefixOf l.data

/-- The input after a run of decimal digits. -/
def dropDigits : List Char → List Char
  | [] => []
  | c :: cs => if c.isDigit then dropDigits cs else c :: cs

/-- Match the literal `lit` at the start of the input; the rest after it. -/
def matchLit : List Char → List Char → Option (List Char)
  | [], inp => some inp
  | _ :: _, [] => none
  | l :: ls, c :: cs => if c = l then matchLit ls cs else none

/-- Match `\d+\.\d{6}` at the start of the input; the rest after it. -/
def matchUnsigned6 (body : List Char) : Option (List Char) :=
  match body with
  | [] => none
  | c :: _ =>
    if c.isDigit then
      match dropDigits body with
      | '.' :: d1 :: d2 :: d3 :: d4 :: d5 :: d6 :: rest =>
        if d1.isDigit && d2.isDigit && d3.isDigit && d4.isDigit && d5.isDigit && d6.isDigit
        then some rest else none
      | _ => none
    else none

/-- Match `-?\d+\.\d{6}` at the start of the input; the rest after it. -/
def matchFixed6 (inp : List Char) : Option (List Char) :=
  matchUnsigned6 (if inp.head? = some '-' then inp.tail else inp)

/-- Whether a line, newline included, matches
`^G1 F0\.60 X-?\d+\.\d{6} Y-?\d+\.\d{6} U-?\d+\.\d{6} V-?\d+\.\d{6}\n$`. -/
def matchesCuttingPattern (line : String) : Bool :=
  ((((((((matchLit "G1 F0.60 X".data line.data).bind matchFixed6).bind
    (matchLit " Y".data)).bind matchFixed6).bind (matchLit " U".data)).bind matchFixed6).bind
    (matchLit " V".data)).bind matchFixed6).bind (matchLit "\n".data) == some []

/-- The lines of a block between its line `(Wire reset)` and the next blank
line. -/
def wireResetLines (block : String) : List String :=
  (((lines block).dropWhile (fun l => l != "(Wire reset)")).tail).takeWhile (fun l => l != "")

/-- Whether `pat` occurs in `text` as a contiguous piece. -/
def occursIn (pat : List Char) : List Char → Bool
  | [] => pat.isEmpty
  | c :: cs => pat.isPrefixOf (c :: cs) || occursIn pat cs

/-- Whether the text `pat` occurs in `text`. -/
def contains (text pat : String) : Bool := occursIn pat.data text.data

/-- All eight declared counts are equal. -/
def allCountsEqual (tv : Side → Half → Dimension → Vector) : Prop :=
  ∀ a h d a' h' d', (tv a h d).totalValues = (tv a' h' d').totalValues

/-- Text of the Inconsistency warning. -/
def inconsistencyWarning : String :=
  "* Note: You should ensure all vector files list the same number of data points\n"

/-- Whether the line starts with the text `pre`. -/
def startsWith (pre l : String) : Bool := pre.data.isPrefixOf l.data

/-- A key of the eight-key index. -/
abbrev Key := Side × Half × Dimension

/-- The eight keys in the order of the program's loops: Side, then Half, then
Dimension. -/
def keys : List Key :=
  [(.Root, .Upper, .X), (.Root, .Upper, .Y), (.Root, .Lower, .X), (.Root, .Lower, .Y),
   (.Tip, .Upper, .X), (.Tip, .Upper, .Y), (.Tip, .Lower, .X), (.Tip, .Lower, .Y)]

/-- The keys the loops visit before `k`. -/
def keysBefore (k : Key) : List Key := keys.takeWhile (fun k' => k' != k)

/-- The file name of a key: its three string forms, no separator. -/
def fileName (k : Key) : String :=
  SideToString k.1 ++ HalfToString k.2.1 ++ DimensionToString k.2.2

/-- Whether the header check passes on a stream with this content: the `%d`
conversion stores a value and the value is positive. -/
def acceptsHeader (content : String) : Bool :=
  match (scanInt content.data).assigned with
  | some n => decide (0 < n)
  | none => false

/-- Whether the stream of key `k` opens and passes the header check. -/
def headerOk (env : Env) (k : Key) : Bool :=
  match env.fopen (fileName k) with
  | some content => acceptsHeader content
  | none => false

/-- Text of the FileOpen error for a file name. -/
def openErrorText (name : String) : String :=
  "* Oops -- Can't open " ++ name ++ ". Are all vector files present?\n"

/-- Text of the HeaderParse error for a file name. -/
def readErrorText (name : String) : String :=
  "* Oops -- Can't read " ++ name ++ ". The first line should be the 'Total Values'.\n"

/-- Whether one of the first `n` conversions on the stream meets end-of-file. -/
def earlyEof : Nat → List Char → Bool
  | 0, _ => false
  | n + 1, inp =>
    if (scanFloat inp).result = EOF then true else earlyEof n (scanFloat inp).rest

/-- The stream begins with the sample tokens `xs`. -/
def beginsWith : List Char → List CFloat → Bool
  | _, [] => true
  | inp, x :: xs =>
    (scanFloat inp).result == 1 && (scanFloat inp).assigned == some x
      && beginsWith (scanFloat inp).rest xs

/-- Text of the EarlyEof warning. -/
def eofWarning : String :=
  "* Note: You should check all vector files for the listed number of data points\n"

/-- The EarlyEof warnings of a run of `ReadVectorData`: one for each stream, in
loop order, on which a conversion meets end-of-file within the declared count. -/
def eofWarnings (tv : Side → Half → Dimension → Vector) : String :=
  concat (keys.map (fun k =>
    if earlyEof (tv k.1 k.2.1 k.2.2).totalValues.toNat (tv k.1 k.2.1 k.2.2).inputFile
    then eofWarning else ""))

/-- The read of element `r.2` of the vector at key `r.1` lies inside the
buffer of that vector. -/
def inBuffer (tv : Side → Half → Dimension → Vector) (r : Key × Nat) : Prop :=
  r.2 < (tv r.1.1 r.1.2.1 r.1.2.2).capacity

end Spec

/-- The body of `OpenDataFiles` at a key. -/
def openAt (env : Env) (k : Spec.Key) : State → Except State State :=
  openBody env k.1 k.2.1 k.2.2

/-- The loop `readLoop` seen from the one vector it works on. -/
def readStream : (remaining : Nat) → (thisValue : Nat) → Vector → Vector
  | 0, _, v => v
  | remaining + 1, thisValue, v =>
    let r := scanFloat v.inputFile
    let read := r.assigned.getD (v.value thisValue)
    let v1 : Vector :=
      { v with inputFile := r.rest
               value := Function.update v.value thisValue (read.scale XYUV_COORDINATE_SCALAR) }
    if r.result = EOF then v1 else readStream remaining (thisValue + 1) v1

/-- The body of `ReadVectorData` at a key. -/
def readAt (k : Spec.Key) (s : State) : State :=
  readLoop k.1 k.2.1 k.2.2 (s.thisVector k.1 k.2.1 k.2.2).totalValues.toNat 0 s

/-- The array elements one iteration of a cutting loop reads: `value[thisValue]`
of (Root, half, X) and (Root, half, Y) in the first `fprintf`, of (Tip, half, X)
and (Tip, half, Y) in the second. -/
def cutBodyReads (thisHalf : Half) (thisValue : Nat) : List (Spec.Key × Nat) :=
  [((.Root, thisHalf, .X), thisValue), ((.Root, thisHalf, .Y), thisValue),
   ((.Tip, thisHalf, .X), thisValue), ((.Tip, thisHalf, .Y), thisValue)]

/-- The array elements a cutting loop reads, in order; same recursion as
`cutLoop`. -/
def cutLoopReads (thisHalf : Half) : (remaining : Nat) → (thisValue : Nat) → List (Spec.Key × Nat)
  | 0, _ => []
  | remaining + 1, thisValue =>
    cutBodyReads thisHalf thisValue ++ cutLoopReads thisHalf remaining (thisValue + 1)

/-- The array elements `OutputGCode` reads: key and index, in order. -/
def OutputGCodeReads (s : State) : List (Spec.Key × Nat) :=
  cutLoopReads .Upper (s.thisVector .Tip .Upper .X).totalValues.toNat 0
    ++ cutLoopReads .Lower (s.thisVector .Tip .Lower .X).totalValues.toNat 0

/-- The array read `value[i]` of a vector, checked against its buffer: `none`
when the index lies outside the buffer. -/
def readCell (v : Vector) (i : Nat) : Option CFloat :=
  if i < v.capacity then some (v.value i) else none

/-- `cutBody` with each of its four array reads checked against the buffer
read: `none` as soon as one lies outside. -/
def cutBodyChecked (thisHalf : Half) (thisValue : Nat) (s : State) : Option State :=
  match readCell (s.thisVector .Root thisHalf .X) thisValue with
  | none => none
  | some rx =>
    match readCell (s.thisVector .Root thisHalf .Y) thisValue with
    | none => none
    | some ry =>
      let s1 := (fprintfOut ("%s %s %s%f %s%f ",
        [.str GCODE_MOVE_COMMAND, .str GCODE_FEEDRATE,
         .str (DimensionToString .X), .dbl rx,
         .str (DimensionToString .Y), .dbl ry]) s).2
      match readCell (s1.thisVector .Tip thisHalf .X) thisValue with
      | none => none
      | some tx =>
        match readCell (s1.thisVector .Tip thisHalf .Y) thisValue with
        | none => none
        | some ty => some (fprintfOut ("U%f V%f\n", [.dbl tx, .dbl ty]) s1).2

/-- `cutLoop` over `cutBodyChecked`. -/
def cutLoopChecked (thisHalf : Half) :
    (remaining : Nat) → (thisValue : Nat) → State → Option State
  | 0, _, s => some s
  | remaining + 1, thisValue, s =>
    match cutBodyChecked thisHalf thisValue s with
    | none => none
    | some s1 => cutLoopChecked thisHalf remaining (thisValue + 1) s1

/-- `OutputGCode` with every array read checked against the buffer read:
`none` when a read lies outside its buffer, else what `OutputGCode` returns. -/
def OutputGCodeChecked (s : State) : Option (Except State State) :=
  let s1 := (fprintfOut GCODE_HEADER s).2
  match cutLoopChecked .Upper (s1.thisVector .Tip .Upper .X).totalValues.toNat 0 s1 with
  | none => none
  | some s2 =>
    let s3 := (fprintfOut GCODE_UPPERLOWER_TRANSITION s2).2
    match cutLoopChecked .Lower (s3.thisVector .Tip .Lower .X).totalValues.toNat 0 s3 with
    | none => none
    | some s4 =>
      let (result, s5) := fprintfOut GCODE_FOOTER s4
      if result < 0 then
        some (.error (fprintfErr MESSAGE_FILE_WRITEERROR [.str OUTPUT_FILENAME]
          (fprintfErr MESSAGE_ERROR [] s5)))
      else some (.ok s5)

/-! ## Concrete environments -/

/-- The state the Loader and the consistency check leave, when they succeed. -/
def loaded (env : Env) : State :=
  match load env with
  | .ok s => s
  | .error s => s

/-- Whether the Loader and the consistency check succeed. -/
def loads (env : Env) : Bool :=
  match load env with
  | .ok _ => true
  | .error _ => false

/-- The state in which `ReadVectorData` starts: files opened, counts checked,
buffers allocated. -/
def preRead (env : Env) : State :=
  match OpenDataFiles env initState with
  | .error s => s
  | .ok s =>
    match AllocateMemory env (CheckVectorConsistency s) with
    | .error s => s
    | .ok s => s

/-- One file, TIPUPPERX, holds the sample token `inf`; every file declares one
value. -/
def envInf : Env :=
  { fopen := fun name =>
      if name = "TIPUPPERX" then some "1\ninf\n"
      else if name ∈ fileNames then some "1\n0.0\n" else none
    malloc := fun _ _ _ => some zeroBlock }

/-- ROOTUPPERX starts with the token `3.5`; the other files declare 3. -/
def env35 : Env :=
  { fopen := fun name =>
      if name = "ROOTUPPERX" then some "3.5\n0.0 0.0 0.0\n"
      else if name ∈ fileNames then some "3\n0.0 0.0 0.0\n" else none
    malloc := fun _ _ _ => some zeroBlock }

/-- ROOTUPPERX declares the count 0 and ROOTUPPERY cannot be opened. -/
def envTwoFaults : Env :=
  { fopen := fun name =>
      if name = "ROOTUPPERX" then some "0\n"
      else if name = "ROOTUPPERY" then none
      else if name ∈ fileNames then some "1\n0.0\n" else none
    malloc := fun _ _ _ => some zeroBlock }

/-- Scenario S3: ROOTUPPERX is missing, the other seven files are as in S1. -/
def envS3 : Env :=
  { fopen := fun name =>
      if name = "ROOTUPPERX" then none
      else if name ∈ fileNames then some "1\n0.0\n" else none
    malloc := fun _ _ _ => some zeroBlock }

/-- Scenario S4: ROOTUPPERX contains the count 0, the other files are as in S1. -/
def envS4 : Env :=
  { fopen := fun name =>
      if name = "ROOTUPPERX" then some "0\n"
      else if name ∈ fileNames then some "1\n0.0\n" else none
    malloc := fun _ _ _ => some zeroBlock }

/-- Scenario S2: each of the eight files contains a count of 1 and the sample 1.0. -/
def envS2 : Env :=
  { fopen := fun name => if name ∈ fileNames then some "1\n1.0\n" else none
    malloc := fun _ _ _ => some zeroBlock }

/-- TIPUPPERX holds the sample `1e38` and TIPUPPERY the sample `0.01`; every
file declares one value. -/
def envRounding : Env :=
  { fopen := fun name =>
      if name = "TIPUPPERX" then some "1\n1e38\n"
      else if name = "TIPUPPERY" then some "1\n0.01\n"
      else if name ∈ fileNames then some "1\n0.0\n" else none
    malloc := fun _ _ _ => some zeroBlock }

/-- TIPUPPERX declares two values, the other seven files one. -/
def envLongTip : Env :=
  { fopen := fun name =>
      if name = "TIPUPPERX" then some "2\n0.0 0.0\n"
      else if name ∈ fileNames then some "1\n0.0\n" else none
    malloc := fun _ _ _ => some zeroBlock }

/-! ## Lemmas: the emitter -/

theorem format_header : format GCODE_HEADER.1 GCODE_HEADER.2 = Spec.headerBlock := by decide!

theorem format_transition :
    format GCODE_UPPERLOWER_TRANSITION.1 GCODE_UPPERLOWER_TRANSITION.2 = Spec.transitionBlock := by
  decide!

theorem format_footer : format GCODE_FOOTER.1 GCODE_FOOTER.2 = Spec.footerBlock := by decide!

theorem cutBody_eq (h : Half) (i : Nat) (s : State) :
    cutBody h i s
      = { s with outputFile := s.outputFile ++ Spec.cuttingLine s.thisVector h i } := by
  have e1 : ∀ a b : CFloat, format "%s %s %s%f %s%f " [.str GCODE_MOVE_COMMAND,
      .str GCODE_FEEDRATE, .str (DimensionToString .X), .dbl a,
      .str (DimensionToString .Y), .dbl b]
      = "G1 F0.60 X" ++ (fmtF a ++ (" Y" ++ (fmtF b ++ " "))) := fun _ _ => rfl
  have e2 : ∀ a b : CFloat, format "U%f V%f\n" [.dbl a, .dbl b]
      = "U" ++ (fmtF a ++ (" V" ++ (fmtF b ++ "\n"))) := fun _ _ => rfl
  have e3 : ∀ t : String, " " ++ ("U" ++ t) = " U" ++ t := fun t => by
    rw [← String.append_assoc]
    exact congrArg (fun u => u ++ t) (by decide : (" " : String) ++ "U" = " U")
  simp only [cutBody, fprintfOut, e1, e2, Spec.cuttingLine, Spec.cuttingLineText,
    String.append_assoc, e3]

theorem concat_cons (x : String) (xs : List String) :
    Spec.concat (x :: xs) = x ++ Spec.concat xs := rfl

theorem cuttingLines_succ (tv : Side → Half → Dimension → Vector) (h : Half) (n : Nat) :
    Spec.cuttingLines tv h (n + 1)
      = Spec.cuttingLine tv h 0
        ++ Spec.concat ((List.range n).map (fun j => Spec.cuttingLine tv h (j + 1))) := by
  simp [Spec.cuttingLines, List.range_succ_eq_map, concat_cons, List.map_map, Function.comp_def]

theorem cutLoop_eq (h : Half) (n : Nat) : ∀ (i : Nat) (s : State),
    cutLoop h n i s
      = { s with outputFile := s.outputFile
            ++ Spec.concat ((List.range n).map (fun j => Spec.cuttingLine s.thisVector h (i + j))) } := by
  induction n with
  | zero => intro i s; simp [cutLoop, Spec.concat]
  | succ n ih =>
    intro i s
    rw [cutLoop, ih, cutBody_eq]
    simp only [List.range_succ_eq_map, List.map_cons, List.map_map, concat_cons,
      String.append_assoc, Nat.add_zero]
    congr 4
    apply List.map_congr_left
    intro j _
    simp only [Function.comp_apply, Nat.succ_eq_add_one]
    congr 1
    omega

theorem OutputGCode_eq (s : State) :
    OutputGCode s = .ok { s with outputFile := s.outputFile ++ Spec.gcodeText s.thisVector } := by
  have hlen : ¬ ((Spec.footerBlock.length : Int) < 0) := not_lt.mpr (Int.ofNat_nonneg _)
  simp only [OutputGCode, fprintfOut, cutLoop_eq, format_header, format_transition,
    format_footer, if_neg hlen, Spec.gcodeText, Spec.cuttingLines, String.append_assoc,
    Nat.zero_add]

/-! ## Lemmas: loops and the loader -/

theorem forEachM_ok_inv {α : Type} (P : State → Prop) (body : α → State → Except State State)
    (hb : ∀ x s s', P s → body x s = .ok s' → P s') :
    ∀ (xs : List α) (s s' : State), P s → forEachM xs body s = .ok s' → P s' := by
  intro xs
  induction xs with
  | nil => intro s s' hs h; simp only [forEachM, Except.ok.injEq] at h; exact h ▸ hs
  | cons x xs ih =>
    intro s s' hs h
    simp only [forEachM] at h
    cases hx : body x s with
    | error e => rw [hx] at h; cases h
    | ok s1 => rw [hx] at h; exact ih s1 s' (hb x s s1 hs hx) h

theorem forEachM_error_inv {α : Type} (P Q : State → Prop)
    (body : α → State → Except State State)
    (hb : ∀ x s s', P s → body x s = .ok s' → P s')
    (he : ∀ x s s', P s → body x s = .error s' → Q s') :
    ∀ (xs : List α) (s s' : State), P s → forEachM xs body s = .error s' → Q s' := by
  intro xs
  induction xs with
  | nil => intro s s' _ h; simp only [forEachM] at h; cases h
  | cons x xs ih =>
    intro s s' hs h
    simp only [forEachM] at h
    cases hx : body x s with
    | error e =>
      rw [hx] at h
      simp only [Except.error.injEq] at h
      exact h ▸ he x s e hs hx
    | ok s1 => rw [hx] at h; exact ih s1 s' (hb x s s1 hs hx) h

theorem forEachM_ok_mem {α : Type} (P : α → State → Prop)
    (body : α → State → Except State State)
    (hset : ∀ x s s', body x s = .ok s' → P x s')
    (hkeep : ∀ x y s s', P x s → body y s = .ok s' → P x s') :
    ∀ (xs : List α) (s s' : State), forEachM xs body s = .ok s' → ∀ x ∈ xs, P x s' := by
  intro xs
  induction xs with
  | nil => intro s s' _ x hx; cases hx
  | cons y ys ih =>
    intro s s' h x hx
    simp only [forEachM] at h
    cases hy : body y s with
    | error e => rw [hy] at h; cases h
    | ok s1 =>
      rw [hy] at h
      rcases List.mem_cons.mp hx with rfl | hmem
      · exact forEachM_ok_inv (P x) body (fun y s s' => hkeep x y s s') ys s1 s'
          (hset x s s1 hy) h
      · exact ih s1 s' h x hmem

theorem forEach_inv {α : Type} (P : State → Prop) (body : α → State → State)
    (hb : ∀ x s, P s → P (body x s)) :
    ∀ (xs : List α) (s : State), P s → P (forEach xs body s) := by
  intro xs
  induction xs with
  | nil => intro s hs; exact hs
  | cons x xs ih => intro s hs; exact ih (body x s) (hb x s hs)

theorem mem_sides (a : Side) : a ∈ [Side.Root, Side.Tip] := by cases a <;> simp
theorem mem_halves (h : Half) : h ∈ [Half.Upper, Half.Lower] := by cases h <;> simp
theorem mem_dimensions (d : Dimension) : d ∈ [Dimension.X, Dimension.Y] := by cases d <;> simp

/-- A property of the state that the three nested loops keep, given that the
body keeps it. -/
theorem nested_ok_inv (P : State → Prop)
    (body : Side → Half → Dimension → State → Except State State)
    (hb : ∀ a h d s s', P s → body a h d s = .ok s' → P s') (s s' : State) (hs : P s)
    (hrun : forEachM [Side.Root, Side.Tip] (fun a =>
      forEachM [Half.Upper, Half.Lower] (fun h =>
        forEachM [Dimension.X, Dimension.Y] (fun d => body a h d))) s = .ok s') : P s' := by
  refine forEachM_ok_inv P _ ?_ _ s s' hs hrun
  intro a s1 s2 h1 hr1
  refine forEachM_ok_inv P _ ?_ _ s1 s2 h1 hr1
  intro h s3 s4 h3 hr3
  exact forEachM_ok_inv P _ (fun d => hb a h d) _ s3 s4 h3 hr3

/-- A property of the state at an `exit` inside the three nested loops. -/
theorem nested_error_inv (P Q : State → Prop)
    (body : Side → Half → Dimension → State → Except State State)
    (hb : ∀ a h d s s', P s → body a h d s = .ok s' → P s')
    (he : ∀ a h d s s', P s → body a h d s = .error s' → Q s') (s s' : State) (hs : P s)
    (hrun : forEachM [Side.Root, Side.Tip] (fun a =>
      forEachM [Half.Upper, Half.Lower] (fun h =>
        forEachM [Dimension.X, Dimension.Y] (fun d => body a h d))) s = .error s') : Q s' := by
  refine forEachM_error_inv P Q _ ?_ ?_ _ s s' hs hrun
  · intro a s1 s2 h1 hr1
    refine forEachM_ok_inv P _ ?_ _ s1 s2 h1 hr1
    intro h s3 s4 h3 hr3
    exact forEachM_ok_inv P _ (fun d => hb a h d) _ s3 s4 h3 hr3
  · intro a s1 s2 h1 hr1
    refine forEachM_error_inv P Q _ ?_ ?_ _ s1 s2 h1 hr1
    · intro h s3 s4 h3 hr3
      exact forEachM_ok_inv P _ (fun d => hb a h d) _ s3 s4 h3 hr3
    · intro h s3 s4 h3 hr3
      exact forEachM_error_inv P Q _ (fun d => hb a h d) (fun d => he a h d) _ s3 s4 h3 hr3

/-- What the three nested loops establish for every key, given that the body
establishes it for its own key and keeps it for the others. -/
theorem nested_ok_all (P : Side → Half → Dimension → State → Prop)
    (body : Side → Half → Dimension → State → Except State State)
    (hset : ∀ a h d s s', body a h d s = .ok s' → P a h d s')
    (hkeep : ∀ a h d a' h' d' s s', P a h d s → body a' h' d' s = .ok s' → P a h d s')
    (s s' : State)
    (hrun : forEachM [Side.Root, Side.Tip] (fun a =>
      forEachM [Half.Upper, Half.Lower] (fun h =>
        forEachM [Dimension.X, Dimension.Y] (fun d => body a h d))) s = .ok s') :
    ∀ a h d, P a h d s' := by
  have inner : ∀ a h (s1 s2 : State),
      forEachM [Dimension.X, Dimension.Y] (fun d => body a h d) s1 = .ok s2 →
      ∀ d, P a h d s2 := fun a h s1 s2 hr d =>
    forEachM_ok_mem (fun d s => P a h d s) _ (fun d => hset a h d)
      (fun d d' => hkeep a h d a h d') _ s1 s2 hr d (mem_dimensions d)
  have innerKeep : ∀ a h d a' h' (s1 s2 : State), P a h d s1 →
      forEachM [Dimension.X, Dimension.Y] (fun d' => body a' h' d') s1 = .ok s2 →
      P a h d s2 := fun a h d a' h' s1 s2 hp hr =>
    forEachM_ok_inv (P a h d) _ (fun d' => hkeep a h d a' h' d') _ s1 s2 hp hr
  have middle : ∀ a (s1 s2 : State),
      forEachM [Half.Upper, Half.Lower] (fun h =>
        forEachM [Dimension.X, Dimension.Y] (fun d => body a h d)) s1 = .ok s2 →
      ∀ h d, P a h d s2 := fun a s1 s2 hr h =>
    forEachM_ok_mem (fun h s => ∀ d, P a h d s) _ (fun h => inner a h)
      (fun h h' s3 s4 hp hr d => innerKeep a h d a h' s3 s4 (hp d) hr) _ s1 s2 hr h
      (mem_halves h)
  have middleKeep : ∀ a h d a' (s1 s2 : State), P a h d s1 →
      forEachM [Half.Upper, Half.Lower] (fun h' =>
        forEachM [Dimension.X, Dimension.Y] (fun d' => body a' h' d')) s1 = .ok s2 →
      P a h d s2 := fun a h d a' s1 s2 hp hr =>
    forEachM_ok_inv (P a h d) _ (fun h' => innerKeep a h d a' h') _ s1 s2 hp hr
  intro a
  exact forEachM_ok_mem (fun a s => ∀ h d, P a h d s) _ (fun a => middle a)
    (fun a a' s3 s4 hp hr h d => middleKeep a h d a' s3 s4 (hp h d) hr) _ s s' hrun a
    (mem_sides a)

theorem setVector_same (tv : Side → Half → Dimension → Vector) (a : Side) (h : Half)
    (d : Dimension) (v : Vector) : setVector tv a h d v a h d = v := by
  simp [setVector]

theorem setVector_totalValues (tv : Side → Half → Dimension → Vector) (a : Side) (h : Half)
    (d : Dimension) (v : Vector) (hv : v.totalValues = (tv a h d).totalValues)
    (a' : Side) (h' : Half) (d' : Dimension) :
    (setVector tv a h d v a' h' d').totalValues = (tv a' h' d').totalValues := by
  unfold setVector
  split
  · next hk => obtain ⟨rfl, rfl, rfl⟩ := hk; exact hv
  · rfl

theorem openBody_ok {env : Env} {a : Side} {h : Half} {d : Dimension} {s s' : State}
    (hr : openBody env a h d s = .ok s') :
    s'.outputFile = s.outputFile ∧ s'.stderr = s.stderr
      ∧ 0 < (s'.thisVector a h d).totalValues
      ∧ ∀ a' h' d', 0 < (s.thisVector a' h' d').totalValues →
          0 < (s'.thisVector a' h' d').totalValues := by
  simp only [openBody] at hr
  split at hr
  · cases hr
  · split at hr
    · cases hr
    · next hpos =>
      simp only [Except.ok.injEq] at hr
      subst hr
      have hpos' := not_le.mp hpos
      refine ⟨rfl, rfl, ?_, ?_⟩
      · simpa [setVector] using hpos'
      · intro a' h' d' hold
        simp only [setVector]
        split
        · exact hpos'
        · exact hold

theorem openBody_error_outputFile {env : Env} {a : Side} {h : Half} {d : Dimension}
    {s s' : State} (hr : openBody env a h d s = .error s') :
    s'.outputFile = s.outputFile := by
  simp only [openBody] at hr
  split at hr
  · simp only [Except.error.injEq] at hr
    subst hr
    rfl
  · split at hr
    · simp only [Except.error.injEq] at hr
      subst hr
      rfl
    · cases hr

theorem allocBody_ok {env : Env} {a : Side} {h : Half} {d : Dimension} {s s' : State}
    (hr : allocBody env a h d s = .ok s') :
    s'.outputFile = s.outputFile ∧ s'.stderr = s.stderr
      ∧ ∀ a' h' d', (s'.thisVector a' h' d').totalValues
          = (s.thisVector a' h' d').totalValues := by
  simp only [allocBody] at hr
  split at hr
  · cases hr
  · simp only [Except.ok.injEq] at hr
    subst hr
    exact ⟨rfl, rfl, fun a' h' d' => by apply setVector_totalValues; rfl⟩

theorem allocBody_error_outputFile {env : Env} {a : Side} {h : Half} {d : Dimension}
    {s s' : State} (hr : allocBody env a h d s = .error s') :
    s'.outputFile = s.outputFile := by
  simp only [allocBody] at hr
  split at hr
  · simp only [Except.error.injEq] at hr
    subst hr
    rfl
  · cases hr

theorem CheckVectorConsistency_frame (s : State) :
    (CheckVectorConsistency s).thisVector = s.thisVector
      ∧ (CheckVectorConsistency s).outputFile = s.outputFile := by
  simp only [CheckVectorConsistency]
  split <;> exact ⟨rfl, rfl⟩

theorem readLoop_frame (a : Side) (h : Half) (d : Dimension) (n : Nat) :
    ∀ (i : Nat) (s : State),
      (readLoop a h d n i s).outputFile = s.outputFile
        ∧ ∀ a' h' d', ((readLoop a h d n i s).thisVector a' h' d').totalValues
            = (s.thisVector a' h' d').totalValues := by
  induction n with
  | zero => intro i s; exact ⟨rfl, fun _ _ _ => rfl⟩
  | succ n ih =>
    intro i s
    simp only [readLoop]
    split
    · exact ⟨rfl, fun a' h' d' => by apply setVector_totalValues; rfl⟩
    · refine ⟨(ih _ _).1, fun a' h' d' => ?_⟩
      rw [(ih _ _).2 a' h' d']
      exact by apply setVector_totalValues; rfl

theorem ReadVectorData_frame (s : State) :
    (ReadVectorData s).outputFile = s.outputFile
      ∧ ∀ a h d, ((ReadVectorData s).thisVector a h d).totalValues
          = (s.thisVector a h d).totalValues := by
  unfold ReadVectorData
  have key : ∀ (P : State → Prop), P s →
      (∀ a h d n i t, P t → P (readLoop a h d n i t)) →
      P (forEach [Side.Root, Side.Tip] (fun thisSide =>
        forEach [Half.Upper, Half.Lower] (fun thisHalf =>
          forEach [Dimension.X, Dimension.Y] (fun thisDimension s =>
            readLoop thisSide thisHalf thisDimension
              (s.thisVector thisSide thisHalf thisDimension).totalValues.toNat 0 s))) s) := by
    intro P hs hb
    refine forEach_inv P _ ?_ _ s hs
    intro a s1 h1
    refine forEach_inv P _ ?_ _ s1 h1
    intro h s2 h2
    refine forEach_inv P _ ?_ _ s2 h2
    intro d s3 h3
    exact hb a h d _ 0 s3 h3
  refine key (fun t => t.outputFile = s.outputFile
      ∧ ∀ a h d, (t.thisVector a h d).totalValues = (s.thisVector a h d).totalValues)
    ⟨rfl, fun _ _ _ => rfl⟩ ?_
  intro a h d n i t ht
  have hf := readLoop_frame a h d n i t
  exact ⟨hf.1.trans ht.1, fun a' h' d' => (hf.2 a' h' d').trans (ht.2 a' h' d')⟩

theorem OpenDataFiles_ok {env : Env} {s s' : State} (hr : OpenDataFiles env s = .ok s') :
    s'.outputFile = "" ∧ s'.stderr = s.stderr
      ∧ ∀ a h d, 0 < (s'.thisVector a h d).totalValues := by
  unfold OpenDataFiles at hr
  refine ⟨?_, ?_, ?_⟩
  · exact nested_ok_inv (fun t => t.outputFile = "") (openBody env)
      (fun a h d s1 s2 h1 hr1 => (openBody_ok hr1).1.trans h1) _ s' rfl hr
  · exact nested_ok_inv (fun t => t.stderr = s.stderr) (openBody env)
      (fun a h d s1 s2 h1 hr1 => (openBody_ok hr1).2.1.trans h1)
      { s with outputFile := "" } s' rfl hr
  · exact nested_ok_all (fun a h d t => 0 < (t.thisVector a h d).totalValues) (openBody env)
      (fun a h d s1 s2 hr1 => (openBody_ok hr1).2.2.1)
      (fun a h d a' h' d' s1 s2 hp hr1 => (openBody_ok hr1).2.2.2 a h d hp) _ s' hr

theorem OpenDataFiles_error_outputFile {env : Env} {s s' : State}
    (hr : OpenDataFiles env s = .error s') : s'.outputFile = "" := by
  unfold OpenDataFiles at hr
  exact nested_error_inv (fun t => t.outputFile = "") (fun t => t.outputFile = "")
    (openBody env) (fun a h d s1 s2 h1 hr1 => (openBody_ok hr1).1.trans h1)
    (fun a h d s1 s2 h1 hr1 => (openBody_error_outputFile hr1).trans h1) _ s' rfl hr

theorem AllocateMemory_ok {env : Env} {s s' : State} (hr : AllocateMemory env s = .ok s') :
    s'.outputFile = s.outputFile
      ∧ ∀ a h d, (s'.thisVector a h d).totalValues = (s.thisVector a h d).totalValues := by
  unfold AllocateMemory at hr
  exact nested_ok_inv (fun t => t.outputFile = s.outputFile
      ∧ ∀ a h d, (t.thisVector a h d).totalValues = (s.thisVector a h d).totalValues)
    (allocBody env)
    (fun a h d s1 s2 h1 hr1 => ⟨(allocBody_ok hr1).1.trans h1.1,
      fun a' h' d' => ((allocBody_ok hr1).2.2 a' h' d').trans (h1.2 a' h' d')⟩)
    s s' ⟨rfl, fun _ _ _ => rfl⟩ hr

theorem AllocateMemory_error_outputFile {env : Env} {s s' : State}
    (hr : AllocateMemory env s = .error s') : s'.outputFile = s.outputFile := by
  unfold AllocateMemory at hr
  exact nested_error_inv (fun t => t.outputFile = s.outputFile)
    (fun t => t.outputFile = s.outputFile) (allocBody env)
    (fun a h d s1 s2 h1 hr1 => (allocBody_ok hr1).1.trans h1)
    (fun a h d s1 s2 h1 hr1 => (allocBody_error_outputFile hr1).trans h1) s s' rfl hr

/-- After the Loader and the consistency check nothing has been written to the
output yet and every declared count is positive. -/
theorem load_ok {env : Env} {s : State} (hr : load env = .ok s) :
    s.outputFile = "" ∧ ∀ a h d, 0 < (s.thisVector a h d).totalValues := by
  unfold load at hr
  split at hr
  · cases hr
  · next s1 h1 =>
    split at hr
    · cases hr
    · next s2 h2 =>
      simp only [Except.ok.injEq] at hr
      subst hr
      have ho := OpenDataFiles_ok h1
      have hc := CheckVectorConsistency_frame s1
      have ha := AllocateMemory_ok h2
      have hd := ReadVectorData_frame s2
      refine ⟨?_, fun a h d => ?_⟩
      · rw [hd.1, ha.1, hc.2, ho.1]
      · rw [hd.2, ha.2, hc.1]
        exact ho.2.2 a h d

/-- A fatal error of the Loader leaves the output empty. -/
theorem load_error_outputFile {env : Env} {s : State} (hr : load env = .error s) :
    s.outputFile = "" := by
  unfold load at hr
  split at hr
  · next s1 h1 =>
    simp only [Except.error.injEq] at hr
    subst hr
    exact OpenDataFiles_error_outputFile h1
  · next s1 h1 =>
    split at hr
    · next s2 h2 =>
      simp only [Except.error.injEq] at hr
      subst hr
      rw [AllocateMemory_error_outputFile h2, (CheckVectorConsistency_frame s1).2,
        (OpenDataFiles_ok h1).1]
    · cases hr

theorem loads_eq {env : Env} (h : loads env = true) : load env = .ok (loaded env) := by
  unfold loads at h
  unfold loaded
  split at h
  · next s hs => rw [hs]
  · cases h

theorem load_eq_read {env : Env} (h : loads env = true) :
    load env = .ok (ReadVectorData (preRead env)) := by
  unfold loads load at h
  unfold load preRead
  cases hO : OpenDataFiles env initState with
  | error e =>
    rw [hO] at h
    cases h
  | ok s1 =>
    rw [hO] at h
    dsimp only at h ⊢
    cases hA : AllocateMemory env (CheckVectorConsistency s1) with
    | error e =>
      rw [hA] at h
      cases h
    | ok s2 => rfl

theorem decDigit_isDigit (d : Nat) : (decDigit d).isDigit = true := by
  unfold decDigit
  split <;> rfl

theorem decDigitsAux_isDigit : ∀ (fuel n : Nat) (acc : List Char),
    (∀ c ∈ acc, c.isDigit = true) → ∀ c ∈ decDigitsAux fuel n acc, c.isDigit = true := by
  intro fuel
  induction fuel with
  | zero => intro n acc hacc c hc; exact hacc c hc
  | succ fuel ih =>
    intro n acc hacc c hc
    simp only [decDigitsAux] at hc
    split at hc
    · rcases List.mem_cons.mp hc with rfl | hmem
      · exact decDigit_isDigit n
      · exact hacc c hmem
    · refine ih (n / 10) _ ?_ c hc
      intro c' hc'
      rcases List.mem_cons.mp hc' with rfl | hmem
      · exact decDigit_isDigit _
      · exact hacc c' hmem

theorem decDigitsAux_ne_nil : ∀ (fuel n : Nat) (acc : List Char),
    acc ≠ [] → decDigitsAux fuel n acc ≠ [] := by
  intro fuel
  induction fuel with
  | zero => intro n acc hacc; exact hacc
  | succ fuel ih =>
    intro n acc _
    simp only [decDigitsAux]
    split
    · exact List.cons_ne_nil _ _
    · exact ih _ _ (List.cons_ne_nil _ _)

theorem decDigits_isDigit (n : Nat) : ∀ c ∈ decDigits n, c.isDigit = true :=
  decDigitsAux_isDigit (n + 1) n [] (fun _ h => absurd h (List.not_mem_nil _))

theorem decDigits_ne_nil (n : Nat) : decDigits n ≠ [] := by
  simp only [decDigits, decDigitsAux]
  split
  · exact List.cons_ne_nil _ _
  · exact decDigitsAux_ne_nil _ _ _ (List.cons_ne_nil _ _)

theorem matchLit_append (l rest : List Char) : Spec.matchLit l (l ++ rest) = some rest := by
  induction l with
  | nil => cases rest <;> rfl
  | cons c cs ih => simp [Spec.matchLit, ih]

theorem dropDigits_append (ds : List Char) (hds : ∀ c ∈ ds, c.isDigit = true) (x : Char)
    (hx : x.isDigit = false) (rest : List Char) :
    Spec.dropDigits (ds ++ x :: rest) = x :: rest := by
  induction ds with
  | nil => simp [Spec.dropDigits, hx]
  | cons c cs ih =>
    have hc : c.isDigit = true := hds c (List.mem_cons_self _ _)
    simp only [List.cons_append, Spec.dropDigits, hc, if_true]
    exact ih (fun c' hc' => hds c' (List.mem_cons_of_mem _ hc'))

theorem matchUnsigned6_digits (ds : List Char) (hne : ds ≠ [])
    (hds : ∀ c ∈ ds, c.isDigit = true) (n : Nat) (rest : List Char) :
    Spec.matchUnsigned6 (ds ++ '.' :: (frac6 n ++ rest)) = some rest := by
  cases ds with
  | nil => exact absurd rfl hne
  | cons c cs =>
    have hc : c.isDigit = true := hds c (List.mem_cons_self _ _)
    have hdrop := dropDigits_append (c :: cs) hds '.' (by decide) (frac6 n ++ rest)
    simp only [List.cons_append] at hdrop
    simp only [Spec.matchUnsigned6, List.cons_append, hc, if_true]
    rw [hdrop]
    simp [frac6, decDigit_isDigit]

theorem matchFixed6_fmtF (neg : Bool) (m : Nat) (e : Int) (rest : List Char) :
    Spec.matchFixed6 ((fmtF (.finite neg m e)).data ++ rest) = some rest := by
  have hd := matchUnsigned6_digits (decDigits (scaled6 m e / 1000000)) (decDigits_ne_nil _)
    (decDigits_isDigit _) (scaled6 m e % 1000000) rest
  cases neg with
  | false =>
    cases hds : decDigits (scaled6 m e / 1000000) with
    | nil => exact absurd hds (decDigits_ne_nil _)
    | cons c cs =>
      have hc : c.isDigit = true := by
        have := decDigits_isDigit (scaled6 m e / 1000000) c
        rw [hds] at this
        exact this (List.mem_cons_self _ _)
      have hminus : c ≠ '-' := by
        intro e
        rw [e] at hc
        exact absurd hc (by decide)
      rw [hds] at hd
      simp only [List.cons_append] at hd
      simp only [fmtF, hds, Spec.matchFixed6, Bool.false_eq_true, if_false, List.nil_append,
        List.cons_append, List.head?_cons, Option.some.injEq, hminus, List.append_assoc]
      exact hd
  | true =>
    simp only [fmtF, Spec.matchFixed6, if_true, List.cons_append, List.singleton_append,
      List.head?_cons, List.tail_cons, List.append_assoc, List.nil_append]
    exact hd

theorem isFinite_iff (x : CFloat) :
    x.isFinite = true → ∃ neg m e, x = .finite neg m e := by
  cases x with
  | finite neg m e => intro _; exact ⟨neg, m, e, rfl⟩
  | inf neg => intro h; cases h
  | nan neg => intro h; cases h

theorem matches_cuttingLine (tv : Side → Half → Dimension → Vector) (h : Half) (i : Nat)
    (hfin : ∀ a d, ((tv a h d).value i).isFinite = true) :
    Spec.matchesCuttingPattern (Spec.cuttingLine tv h i) = true := by
  obtain ⟨n1, m1, e1, h1⟩ := isFinite_iff _ (hfin .Root .X)
  obtain ⟨n2, m2, e2, h2⟩ := isFinite_iff _ (hfin .Root .Y)
  obtain ⟨n3, m3, e3, h3⟩ := isFinite_iff _ (hfin .Tip .X)
  obtain ⟨n4, m4, e4, h4⟩ := isFinite_iff _ (hfin .Tip .Y)
  simp only [Spec.matchesCuttingPattern, Spec.cuttingLine, Spec.cuttingLineText, h1, h2, h3, h4,
    String.data_append, List.append_assoc, matchLit_append, Option.some_bind, Option.bind_some,
    matchFixed6_fmtF]
  have := matchLit_append "\n".data []
  rw [List.append_nil] at this
  rw [this]
  rfl

/-! ## Lemmas: the consistency check -/

theorem CheckVectorConsistency_of_equal (s : State) (hall : Spec.allCountsEqual s.thisVector) :
    CheckVectorConsistency s = s := by
  simp only [CheckVectorConsistency]
  rw [if_neg]
  simp only [Bool.not_eq_true, Bool.not_eq_false', Bool.and_eq_true, beq_iff_eq]
  exact ⟨⟨⟨⟨⟨⟨hall _ _ _ _ _ _, hall _ _ _ _ _ _⟩, hall _ _ _ _ _ _⟩, hall _ _ _ _ _ _⟩,
    hall _ _ _ _ _ _⟩, hall _ _ _ _ _ _⟩, hall _ _ _ _ _ _⟩

theorem CheckVectorConsistency_of_unequal (s : State)
    (hall : ¬ Spec.allCountsEqual s.thisVector) :
    CheckVectorConsistency s = { s with stderr := s.stderr ++ Spec.inconsistencyWarning } := by
  have hmsg : ∀ t : String, t ++ format MESSAGE_WARNING [] ++ format MESSAGE_VECTOR_CONSISTENCY []
      = t ++ Spec.inconsistencyWarning := by
    intro t
    rw [String.append_assoc]
    congr 1
  simp only [CheckVectorConsistency]
  rw [if_pos]
  · simp only [fprintfErr, hmsg]
  · simp only [Bool.not_eq_true', Bool.and_eq_false_iff, beq_eq_false_iff_ne, ne_eq]
    by_contra hcon
    simp only [not_or, not_not] at hcon
    obtain ⟨⟨⟨⟨⟨⟨h1, h2⟩, h3⟩, h4⟩, h5⟩, h6⟩, h7⟩ := hcon
    apply hall
    have href : ∀ a h d, (s.thisVector a h d).totalValues
        = (s.thisVector .Tip .Lower .Y).totalValues := by
      intro a h d
      cases a <;> cases h <;> cases d <;> first | assumption | rfl
    intro a h d a' h' d'
    rw [href a h d, href a' h' d']

theorem append_ne_self (t m : String) (hm : m ≠ "") : t ++ m ≠ t := by
  intro h
  have hl := congrArg String.length h
  rw [String.length_append] at hl
  have : m.length = 0 := by omega
  apply hm
  apply String.ext
  exact List.length_eq_zero.mp this

/-! ## Lemmas: the Loader, stream by stream -/

theorem forEachM_append {α : Type} (body : α → State → Except State State) :
    ∀ (xs ys : List α) (s : State),
      forEachM (xs ++ ys) body s
        = match forEachM xs body s with
          | .ok s1 => forEachM ys body s1
          | .error e => .error e := by
  intro xs
  induction xs with
  | nil => intro ys s; rfl
  | cons x xs ih =>
    intro ys s
    simp only [List.cons_append, forEachM]
    cases body x s with
    | error e => rfl
    | ok s1 => exact ih ys s1

/-- The three nested loops visit the eight keys in the order of `keys`. -/
theorem nested_eq_flat (body : Side → Half → Dimension → State → Except State State)
    (s : State) :
    forEachM [Side.Root, Side.Tip] (fun a =>
      forEachM [Half.Upper, Half.Lower] (fun h =>
        forEachM [Dimension.X, Dimension.Y] (fun d => body a h d))) s
      = forEachM Spec.keys (fun k => body k.1 k.2.1 k.2.2) s := by
  simp only [forEachM, Spec.keys]
  cases body .Root .Upper .X s with
  | error e => rfl
  | ok s1 =>
    dsimp only
    cases body .Root .Upper .Y s1 with
    | error e => rfl
    | ok s2 =>
      dsimp only
      cases body .Root .Lower .X s2 with
      | error e => rfl
      | ok s3 =>
        dsimp only
        cases body .Root .Lower .Y s3 with
        | error e => rfl
        | ok s4 =>
          dsimp only
          cases body .Tip .Upper .X s4 with
          | error e => rfl
          | ok s5 =>
            dsimp only
            cases body .Tip .Upper .Y s5 with
            | error e => rfl
            | ok s6 =>
              dsimp only
              cases body .Tip .Lower .X s6 with
              | error e => rfl
              | ok s7 =>
                dsimp only
                cases body .Tip .Lower .Y s7 with
                | error e => rfl
                | ok s8 => rfl

theorem OpenDataFiles_flat (env : Env) (s : State) :
    OpenDataFiles env s = forEachM Spec.keys (openAt env) { s with outputFile := "" } := by
  unfold OpenDataFiles
  exact nested_eq_flat (openBody env) _

theorem mem_keys (k : Spec.Key) : k ∈ Spec.keys := by
  obtain ⟨a, h, d⟩ := k
  cases a <;> cases h <;> cases d <;> simp [Spec.keys]

theorem keys_split (k : Spec.Key) :
    ∃ post, Spec.keys = Spec.keysBefore k ++ k :: post := by
  obtain ⟨a, h, d⟩ := k
  cases a <;> cases h <;> cases d <;> exact ⟨_, rfl⟩

theorem error_texts (name t : String) :
    t ++ format MESSAGE_ERROR [] ++ format MESSAGE_FILE_OPENERROR [.str name]
        = t ++ Spec.openErrorText name
      ∧ t ++ format MESSAGE_ERROR [] ++ format MESSAGE_FILE_READERROR [.str name]
        = t ++ Spec.readErrorText name := by
  have e1 : format MESSAGE_ERROR [] = "* Oops -- Can't " := by decide
  have e2 : format MESSAGE_FILE_OPENERROR [.str name]
      = "open " ++ (name ++ ". Are all vector files present?\n") := rfl
  have e3 : format MESSAGE_FILE_READERROR [.str name]
      = "read " ++ (name ++ ". The first line should be the 'Total Values'.\n") := rfl
  have e4 : ∀ u : String, "* Oops -- Can't " ++ ("open " ++ u) = "* Oops -- Can't open " ++ u :=
    fun u => by
      rw [← String.append_assoc]
      exact congrArg (fun v => v ++ u) (by decide : "* Oops -- Can't " ++ "open " = _)
  have e5 : ∀ u : String, "* Oops -- Can't " ++ ("read " ++ u) = "* Oops -- Can't read " ++ u :=
    fun u => by
      rw [← String.append_assoc]
      exact congrArg (fun v => v ++ u) (by decide : "* Oops -- Can't " ++ "read " = _)
  simp only [e1, e2, e3, Spec.openErrorText, Spec.readErrorText, String.append_assoc, e4, e5,
    and_self]

/-- An accepted stream: the body returns, stores the scanned count at its own
key and leaves everything else as it was. -/
theorem openAt_of_headerOk (env : Env) (k : Spec.Key) (s : State)
    (hk : Spec.headerOk env k = true) :
    ∃ s', openAt env k s = .ok s' ∧ s'.stderr = s.stderr ∧ s'.outputFile = s.outputFile
      ∧ (∀ k' : Spec.Key, k' ≠ k →
          s'.thisVector k'.1 k'.2.1 k'.2.2 = s.thisVector k'.1 k'.2.1 k'.2.2) := by
  obtain ⟨a, h, d⟩ := k
  simp only [Spec.headerOk, Spec.fileName] at hk
  simp only [openAt, openBody]
  split at hk
  · next content hc =>
    rw [hc]
    simp only [Spec.acceptsHeader] at hk
    split at hk
    · next n hn =>
      have hpos : 0 < n := of_decide_eq_true hk
      simp only [hn, Option.getD_some, not_le.mpr hpos, if_false]
      refine ⟨_, rfl, rfl, rfl, ?_⟩
      intro k' hk'
      simp only [setVector]
      rw [if_neg]
      intro hcon
      apply hk'
      obtain ⟨h1, h2, h3⟩ := hcon
      exact Prod.ext h1 (Prod.ext h2 h3)
    · cases hk
  · cases hk

/-- A rejected stream whose count is still the zero of static storage: the
body exits, with the FileOpen text when the file does not open and the
HeaderParse text otherwise. -/
theorem openAt_of_not_headerOk (env : Env) (k : Spec.Key) (s : State)
    (hk : Spec.headerOk env k = false)
    (hzero : (s.thisVector k.1 k.2.1 k.2.2).totalValues = 0) :
    ∃ s', openAt env k s = .error s' ∧ s'.outputFile = s.outputFile
      ∧ s'.stderr = s.stderr ++ (match env.fopen (Spec.fileName k) with
          | none => Spec.openErrorText (Spec.fileName k)
          | some _ => Spec.readErrorText (Spec.fileName k)) := by
  obtain ⟨a, h, d⟩ := k
  simp only [Spec.headerOk, Spec.fileName] at hk
  simp only [openAt, openBody, Spec.fileName]
  split at hk
  · next content hc =>
    rw [hc]
    simp only [Spec.acceptsHeader] at hk
    have hle : (scanInt content.data).assigned.getD (s.thisVector a h d).totalValues ≤ 0 := by
      split at hk
      · next n hn =>
        rw [hn, Option.getD_some]
        exact not_lt.mp (of_decide_eq_false hk)
      · next hn =>
        rw [hn, Option.getD_none]
        simp only at hzero
        omega
    simp only [hle, if_true]
    exact ⟨_, rfl, rfl, (error_texts _ _).2⟩
  · next hc =>
    rw [hc]
    exact ⟨_, rfl, rfl, (error_texts _ _).1⟩

/-- The streams before the first rejected one are accepted in turn, and the
program exits at the rejected one. -/
theorem open_run_error (env : Env) (k : Spec.Key) (post : List Spec.Key)
    (hk : Spec.headerOk env k = false) :
    ∀ (pre : List Spec.Key) (s : State),
      (∀ k' ∈ pre, Spec.headerOk env k' = true) →
      (s.thisVector k.1 k.2.1 k.2.2).totalValues = 0 →
      ∃ s', forEachM (pre ++ k :: post) (openAt env) s = .error s'
        ∧ s'.outputFile = s.outputFile
        ∧ s'.stderr = s.stderr ++ (match env.fopen (Spec.fileName k) with
            | none => Spec.openErrorText (Spec.fileName k)
            | some _ => Spec.readErrorText (Spec.fileName k)) := by
  intro pre
  induction pre with
  | nil =>
    intro s _ hzero
    obtain ⟨s', hs', hout, herr⟩ := openAt_of_not_headerOk env k s hk hzero
    exact ⟨s', by simp only [List.nil_append, forEachM, hs'], hout, herr⟩
  | cons k' pre ih =>
    intro s hpre hzero
    have hk' : Spec.headerOk env k' = true := hpre k' (List.mem_cons_self _ _)
    have hne : k ≠ k' := by
      intro e
      rw [e, hk'] at hk
      cases hk
    obtain ⟨s1, hs1, herr1, hout1, hframe⟩ := openAt_of_headerOk env k' s hk'
    obtain ⟨s', hs', hout, herr⟩ := ih s1 (fun x hx => hpre x (List.mem_cons_of_mem _ hx))
      (by rw [hframe k hne]; exact hzero)
    refine ⟨s', ?_, hout.trans hout1, by rw [herr, herr1]⟩
    simp only [List.cons_append, forEachM, hs1]
    exact hs'

/-- When every stream in a list is accepted the loop over it returns. -/
theorem open_run_ok (env : Env) :
    ∀ (l : List Spec.Key) (s : State), (∀ k ∈ l, Spec.headerOk env k = true) →
      ∃ s', forEachM l (openAt env) s = .ok s' ∧ s'.stderr = s.stderr := by
  intro l
  induction l with
  | nil => intro s _; exact ⟨s, rfl, rfl⟩
  | cons k l ih =>
    intro s hl
    obtain ⟨s1, hs1, herr1, _, _⟩ := openAt_of_headerOk env k s (hl k (List.mem_cons_self _ _))
    obtain ⟨s', hs', herr⟩ := ih s1 (fun x hx => hl x (List.mem_cons_of_mem _ hx))
    exact ⟨s', by simp only [forEachM, hs1]; exact hs', herr.trans herr1⟩

/-- In a list with a rejected stream there is a first rejected stream. -/
theorem exists_first_rejected (env : Env) :
    ∀ (l : List Spec.Key) (k : Spec.Key), k ∈ l → Spec.headerOk env k = false →
      ∃ pre k0 post, l = pre ++ k0 :: post ∧ (∀ x ∈ pre, Spec.headerOk env x = true)
        ∧ Spec.headerOk env k0 = false := by
  intro l
  induction l with
  | nil => intro k hk; cases hk
  | cons x l ih =>
    intro k hk hrej
    cases hx : Spec.headerOk env x with
    | false => exact ⟨[], x, l, rfl, fun _ h => absurd h (List.not_mem_nil _), hx⟩
    | true =>
      have hmem : k ∈ l := by
        rcases List.mem_cons.mp hk with rfl | h
        · rw [hx] at hrej; cases hrej
        · exact h
      obtain ⟨pre, k0, post, hl, hpre, hk0⟩ := ih k hmem hrej
      refine ⟨x :: pre, k0, post, by rw [hl]; rfl, ?_, hk0⟩
      intro y hy
      rcases List.mem_cons.mp hy with rfl | h
      · exact hx
      · exact hpre y h

/-- A fatal error in `OpenDataFiles` is a fatal error of the program, with the
same final state. -/
theorem main_of_open_error {env : Env} {s' : State}
    (h : OpenDataFiles env initState = .error s') : main env = (EXIT_FAILURE, s') := by
  simp only [main, load, h]

/-- The program exits in `OpenDataFiles` at the first rejected stream. -/
theorem main_first_rejected (env : Env) (pre : List Spec.Key) (k : Spec.Key)
    (post : List Spec.Key) (hkeys : Spec.keys = pre ++ k :: post)
    (hpre : ∀ x ∈ pre, Spec.headerOk env x = true) (hk : Spec.headerOk env k = false) :
    (main env).1 = EXIT_FAILURE ∧ (main env).2.outputFile = ""
      ∧ (main env).2.stderr = (match env.fopen (Spec.fileName k) with
          | none => Spec.openErrorText (Spec.fileName k)
          | some _ => Spec.readErrorText (Spec.fileName k)) := by
  obtain ⟨s', hs', hout, herr⟩ := open_run_error env k post hk pre
    { initState with outputFile := "" } hpre rfl
  have hopen : OpenDataFiles env initState = .error s' := by
    rw [OpenDataFiles_flat, hkeys]
    exact hs'
  rw [main_of_open_error hopen]
  refine ⟨rfl, hout, ?_⟩
  rw [herr]
  exact String.empty_append _

/-! ## Lemmas: reading the samples -/

theorem setVector_self (tv : Side → Half → Dimension → Vector) (a : Side) (h : Half)
    (d : Dimension) : setVector tv a h d (tv a h d) = tv := by
  funext a' h' d'
  simp only [setVector]
  split
  · next hk => obtain ⟨rfl, rfl, rfl⟩ := hk; rfl
  · rfl

theorem setVector_setVector (tv : Side → Half → Dimension → Vector) (a : Side) (h : Half)
    (d : Dimension) (v w : Vector) :
    setVector (setVector tv a h d v) a h d w = setVector tv a h d w := by
  funext a' h' d'
  simp only [setVector]
  split <;> rfl

theorem eof_text (t : String) :
    t ++ format MESSAGE_WARNING [] ++ format MESSAGE_VECTOR_EOF [] = t ++ Spec.eofWarning := by
  rw [String.append_assoc]
  congr 1

theorem readLoop_eq (a : Side) (h : Half) (d : Dimension) (n : Nat) :
    ∀ (i : Nat) (s : State),
      readLoop a h d n i s
        = { thisVector := setVector s.thisVector a h d (readStream n i (s.thisVector a h d))
            outputFile := s.outputFile
            stderr := s.stderr
              ++ (if Spec.earlyEof n (s.thisVector a h d).inputFile then Spec.eofWarning
                  else "") } := by
  induction n with
  | zero =>
    intro i s
    simp only [readLoop, readStream, Spec.earlyEof, setVector_self, Bool.false_eq_true,
      if_false, String.append_empty]
  | succ n ih =>
    intro i s
    simp only [readLoop, readStream, Spec.earlyEof]
    by_cases heof : (scanFloat (s.thisVector a h d).inputFile).result = EOF
    · simp only [heof, if_true, fprintfErr, eof_text]
    · simp only [heof, if_false, ih, setVector_same, setVector_setVector]

theorem readAt_eq (k : Spec.Key) (s : State) :
    readAt k s
      = { thisVector := setVector s.thisVector k.1 k.2.1 k.2.2
            (readStream (s.thisVector k.1 k.2.1 k.2.2).totalValues.toNat 0
              (s.thisVector k.1 k.2.1 k.2.2))
          outputFile := s.outputFile
          stderr := s.stderr
            ++ (if Spec.earlyEof (s.thisVector k.1 k.2.1 k.2.2).totalValues.toNat
                  (s.thisVector k.1 k.2.1 k.2.2).inputFile then Spec.eofWarning else "") } :=
  readLoop_eq _ _ _ _ _ _

theorem ReadVectorData_flat (s : State) : ReadVectorData s = forEach Spec.keys readAt s := rfl

theorem setVector_other (tv : Side → Half → Dimension → Vector) (k k' : Spec.Key)
    (v : Vector) (hne : k' ≠ k) :
    setVector tv k.1 k.2.1 k.2.2 v k'.1 k'.2.1 k'.2.2 = tv k'.1 k'.2.1 k'.2.2 := by
  simp only [setVector]
  rw [if_neg]
  intro hcon
  apply hne
  obtain ⟨h1, h2, h3⟩ := hcon
  exact Prod.ext h1 (Prod.ext h2 h3)

/-- A run of the read loop over a list of distinct keys: the warnings, and the
vector of every key. -/
theorem read_run : ∀ (l : List Spec.Key) (s : State), l.Nodup →
    (forEach l readAt s).outputFile = s.outputFile
      ∧ (forEach l readAt s).stderr = s.stderr ++ Spec.concat (l.map (fun k =>
          if Spec.earlyEof (s.thisVector k.1 k.2.1 k.2.2).totalValues.toNat
            (s.thisVector k.1 k.2.1 k.2.2).inputFile then Spec.eofWarning else ""))
      ∧ (∀ k ∈ l, (forEach l readAt s).thisVector k.1 k.2.1 k.2.2
          = readStream (s.thisVector k.1 k.2.1 k.2.2).totalValues.toNat 0
              (s.thisVector k.1 k.2.1 k.2.2))
      ∧ (∀ k, k ∉ l → (forEach l readAt s).thisVector k.1 k.2.1 k.2.2
          = s.thisVector k.1 k.2.1 k.2.2) := by
  intro l
  induction l with
  | nil =>
    intro s _
    refine ⟨rfl, ?_, fun k hk => absurd hk (List.not_mem_nil _), fun _ _ => rfl⟩
    simp only [forEach, List.map_nil, Spec.concat, List.foldr_nil, String.append_empty]
  | cons k l ih =>
    intro s hnd
    have hk : k ∉ l := (List.nodup_cons.mp hnd).1
    obtain ⟨hout, herr, hin, hnot⟩ := ih (readAt k s) (List.nodup_cons.mp hnd).2
    have hother : ∀ k', k' ≠ k → (readAt k s).thisVector k'.1 k'.2.1 k'.2.2
        = s.thisVector k'.1 k'.2.1 k'.2.2 := by
      intro k' hne
      rw [readAt_eq]
      exact setVector_other _ _ _ _ hne
    simp only [forEach]
    refine ⟨?_, ?_, ?_, ?_⟩
    · rw [hout, readAt_eq]
    · rw [herr]
      have hmap : l.map (fun k' =>
            if Spec.earlyEof ((readAt k s).thisVector k'.1 k'.2.1 k'.2.2).totalValues.toNat
              ((readAt k s).thisVector k'.1 k'.2.1 k'.2.2).inputFile then Spec.eofWarning
            else "")
          = l.map (fun k' =>
            if Spec.earlyEof (s.thisVector k'.1 k'.2.1 k'.2.2).totalValues.toNat
              (s.thisVector k'.1 k'.2.1 k'.2.2).inputFile then Spec.eofWarning else "") := by
        apply List.map_congr_left
        intro k' hk'
        have hne : k' ≠ k := fun e => hk (e ▸ hk')
        simp only [hother k' hne]
      rw [hmap, List.map_cons, concat_cons, readAt_eq, String.append_assoc]
    · intro k' hk'
      rcases List.mem_cons.mp hk' with rfl | hmem
      · rw [hnot _ hk, readAt_eq]
        exact setVector_same _ _ _ _ _
      · have hne : k' ≠ k := fun e => hk (e ▸ hmem)
        rw [hin k' hmem, hother k' hne]
    · intro k' hk'
      have hne : k' ≠ k := fun e => hk' (e ▸ List.mem_cons_self _ _)
      rw [hnot k' (fun hm => hk' (List.mem_cons_of_mem _ hm)), hother k' hne]

theorem keys_nodup : Spec.keys.Nodup := by decide

/-- `ReadVectorData`, stream by stream. -/
theorem ReadVectorData_eq (s : State) :
    (ReadVectorData s).outputFile = s.outputFile
      ∧ (ReadVectorData s).stderr = s.stderr ++ Spec.eofWarnings s.thisVector
      ∧ ∀ k : Spec.Key, (ReadVectorData s).thisVector k.1 k.2.1 k.2.2
          = readStream (s.thisVector k.1 k.2.1 k.2.2).totalValues.toNat 0
              (s.thisVector k.1 k.2.1 k.2.2) := by
  have h := read_run Spec.keys s keys_nodup
  rw [ReadVectorData_flat]
  exact ⟨h.1, h.2.1, fun k => h.2.2.1 k (mem_keys k)⟩

theorem readStream_value_lt (n : Nat) : ∀ (i : Nat) (v : Vector) (j : Nat), j < i →
    (readStream n i v).value j = v.value j := by
  induction n with
  | zero => intro i v j _; rfl
  | succ n ih =>
    intro i v j hj
    simp only [readStream]
    split
    · exact Function.update_noteq (by omega) _ _
    · rw [ih (i + 1) _ j (by omega)]
      exact Function.update_noteq (by omega) _ _

theorem readStream_totalValues (n : Nat) : ∀ (i : Nat) (v : Vector),
    (readStream n i v).totalValues = v.totalValues := by
  induction n with
  | zero => intro i v; rfl
  | succ n ih =>
    intro i v
    simp only [readStream]
    split
    · rfl
    · rw [ih]

theorem one_ne_EOF : (1 : Int) ≠ EOF := by decide

theorem bitLenAux_spec : ∀ (fuel n : Nat), n ≤ fuel → 0 < n →
    1 ≤ bitLenAux fuel n ∧ 2 ^ (bitLenAux fuel n - 1) ≤ n ∧ n < 2 ^ bitLenAux fuel n := by
  intro fuel
  induction fuel with
  | zero => intro n h0 hn; omega
  | succ fuel ih =>
    intro n hle hn
    have hne : n ≠ 0 := by omega
    simp only [bitLenAux, hne, if_false]
    by_cases h1 : n / 2 = 0
    · have hn1 : n = 1 := by omega
      subst hn1
      have : bitLenAux fuel (1 / 2) = 0 := by
        cases fuel <;> simp [bitLenAux]
      rw [this]
      simp
    · have hpos : 0 < n / 2 := Nat.pos_of_ne_zero h1
      obtain ⟨hb1, hlo, hhi⟩ := ih (n / 2) (by omega) hpos
      refine ⟨by omega, ?_, ?_⟩
      · have e : 1 + bitLenAux fuel (n / 2) - 1 = (bitLenAux fuel (n / 2) - 1) + 1 := by omega
        rw [e, pow_succ]
        omega
      · have e : 1 + bitLenAux fuel (n / 2) = bitLenAux fuel (n / 2) + 1 := by omega
        rw [e, pow_succ]
        omega

theorem bitLen_spec (n : Nat) (hn : 0 < n) :
    1 ≤ bitLen n ∧ 2 ^ (bitLen n - 1) ≤ n ∧ n < 2 ^ bitLen n :=
  bitLenAux_spec n n (le_refl n) hn

theorem divRoundEven_bounds (num den : Nat) (hden : 0 < den) :
    2 * (divRoundEven num den * den) ≤ 2 * num + den
      ∧ 2 * num ≤ 2 * (divRoundEven num den * den) + den := by
  have hdm := Nat.div_add_mod num den
  have hr := Nat.mod_lt num hden
  have hmul : den * (num / den) = num / den * den := Nat.mul_comm _ _
  simp only [divRoundEven]
  split
  · next hc =>
    rw [Nat.add_mul, Nat.one_mul]
    rcases hc with hc | ⟨hc, _⟩ <;> omega
  · next hc =>
    have : ¬ den < 2 * (num % den) := fun h => hc (Or.inl h)
    omega

theorem abs_sub_div_le_half (q N D : ℚ) (hD : 0 < D) (h1 : 2 * (q * D) ≤ 2 * N + D)
    (h2 : 2 * N ≤ 2 * (q * D) + D) : |q - N / D| ≤ 1 / 2 := by
  have hx : N = N / D * D := by field_simp
  generalize N / D = x at hx ⊢
  subst hx
  rw [abs_le]
  constructor
  · by_contra hcon
    push_neg at hcon
    nlinarith
  · by_contra hcon
    push_neg at hcon
    nlinarith

theorem divRoundEven_near (num den : Nat) (hden : 0 < den) :
    |(divRoundEven num den : ℚ) - (num : ℚ) / den| ≤ 1 / 2 := by
  obtain ⟨h1, h2⟩ := divRoundEven_bounds num den hden
  refine abs_sub_div_le_half _ _ _ (by exact_mod_cast hden) ?_ ?_
  · exact_mod_cast h1
  · exact_mod_cast h2

/-- `roundAt num den t` is within one half of `num / den / 2^t`. -/
theorem roundAt_near (num den : Nat) (t : Int) (hden : 0 < den) :
    |(roundAt num den t : ℚ) - (num : ℚ) / den / (2 : ℚ) ^ t| ≤ 1 / 2 := by
  have hdq : (0 : ℚ) < den := by exact_mod_cast hden
  cases t with
  | ofNat k =>
    have h := divRoundEven_near num (den * 2 ^ k) (by positivity)
    simp only [roundAt, Int.ofNat_eq_coe, zpow_natCast]
    have e : (num : ℚ) / den / 2 ^ k = (num : ℚ) / ((den * 2 ^ k : Nat) : ℚ) := by
      push_cast
      rw [div_div]
    rw [e]
    exact h
  | negSucc k =>
    have h := divRoundEven_near (num * 2 ^ (k + 1)) den hden
    simp only [roundAt, zpow_negSucc]
    have e : (num : ℚ) / den / (2 ^ (k + 1))⁻¹ = ((num * 2 ^ (k + 1) : Nat) : ℚ) / den := by
      push_cast
      field_simp
    rw [e]
    exact h

theorem roundAt_bound (num den : Nat) (t : Int) (hden : 0 < den) :
    |(roundAt num den t : ℚ) * (2 : ℚ) ^ t - (num : ℚ) / den| ≤ (2 : ℚ) ^ t / 2 := by
  have hp : (0 : ℚ) < (2 : ℚ) ^ t := by positivity
  have h := roundAt_near num den t hden
  have e : (roundAt num den t : ℚ) * (2 : ℚ) ^ t - (num : ℚ) / den
      = ((roundAt num den t : ℚ) - (num : ℚ) / den / (2 : ℚ) ^ t) * (2 : ℚ) ^ t := by
    have hdq : (den : ℚ) ≠ 0 := by exact_mod_cast hden.ne'
    field_simp
    ring
  rw [e, abs_mul, abs_of_pos hp]
  calc |(roundAt num den t : ℚ) - (num : ℚ) / den / (2 : ℚ) ^ t| * (2 : ℚ) ^ t
      ≤ 1 / 2 * (2 : ℚ) ^ t := mul_le_mul_of_nonneg_right h hp.le
    _ = (2 : ℚ) ^ t / 2 := by ring

theorem geTwoPow_iff (num den : Nat) (t : Int) (hden : 0 < den) :
    geTwoPow num den t = true ↔ (2 : ℚ) ^ t ≤ (num : ℚ) / den := by
  have hdq : (0 : ℚ) < den := by exact_mod_cast hden
  cases t with
  | ofNat k =>
    simp only [geTwoPow, decide_eq_true_eq, Int.ofNat_eq_coe, zpow_natCast]
    rw [le_div_iff₀ hdq]
    constructor
    · intro h
      have : ((den * 2 ^ k : Nat) : ℚ) ≤ num := by exact_mod_cast h
      push_cast at this
      linarith
    · intro h
      have : ((2 ^ k * den : Nat) : ℚ) ≤ num := by push_cast; exact h
      have h' : 2 ^ k * den ≤ num := by exact_mod_cast this
      linarith
  | negSucc k =>
    simp only [geTwoPow, decide_eq_true_eq, zpow_negSucc]
    rw [le_div_iff₀ hdq, inv_mul_le_iff₀ (by positivity)]
    constructor
    · intro h
      have : ((den : Nat) : ℚ) ≤ ((num * 2 ^ (k + 1) : Nat) : ℚ) := by exact_mod_cast h
      push_cast at this
      linarith
    · intro h
      have : ((den : Nat) : ℚ) ≤ ((2 ^ (k + 1) * num : Nat) : ℚ) := by push_cast; exact h
      have h' : den ≤ 2 ^ (k + 1) * num := by exact_mod_cast this
      linarith

theorem bitLen_zpow (n : Nat) (hn : 0 < n) :
    (2 : ℚ) ^ ((bitLen n : Int) - 1) ≤ n ∧ (n : ℚ) < (2 : ℚ) ^ (bitLen n : Int) := by
  obtain ⟨h1, hlo, hhi⟩ := bitLen_spec n hn
  constructor
  · have e : ((bitLen n : Int) - 1) = ((bitLen n - 1 : Nat) : Int) := by omega
    rw [e, zpow_natCast]
    exact_mod_cast hlo
  · rw [zpow_natCast]
    exact_mod_cast hhi

/-- The exponent `roundF32` computes is the floor of the binary logarithm. -/
theorem floorLog_spec (num den : Nat) (hnum : 0 < num) (hden : 0 < den) :
    (2 : ℚ) ^ (if geTwoPow num den ((bitLen num : Int) - (bitLen den : Int)) = true
        then (bitLen num : Int) - (bitLen den : Int)
        else (bitLen num : Int) - (bitLen den : Int) - 1) ≤ (num : ℚ) / den
      ∧ (num : ℚ) / den
        < (2 : ℚ) ^ ((if geTwoPow num den ((bitLen num : Int) - (bitLen den : Int)) = true
            then (bitLen num : Int) - (bitLen den : Int)
            else (bitLen num : Int) - (bitLen den : Int) - 1) + 1) := by
  have hdq : (0 : ℚ) < den := by exact_mod_cast hden
  obtain ⟨ha1, ha2⟩ := bitLen_zpow num hnum
  obtain ⟨hb1, hb2⟩ := bitLen_zpow den hden
  generalize (bitLen num : Int) = a at *
  generalize (bitLen den : Int) = b at *
  have h2 : (0 : ℚ) < 2 := by norm_num
  have hupper : (num : ℚ) / den < (2 : ℚ) ^ (a - b + 1) := by
    rw [div_lt_iff₀ hdq]
    have e : (2 : ℚ) ^ a = (2 : ℚ) ^ (a - b + 1) * (2 : ℚ) ^ (b - 1) := by
      rw [← zpow_add₀ (two_ne_zero)]
      congr 1
      ring
    calc (num : ℚ) < (2 : ℚ) ^ a := ha2
      _ = (2 : ℚ) ^ (a - b + 1) * (2 : ℚ) ^ (b - 1) := e
      _ ≤ (2 : ℚ) ^ (a - b + 1) * den := by
        apply mul_le_mul_of_nonneg_left hb1
        positivity
  have hlower : (2 : ℚ) ^ (a - b - 1) < (num : ℚ) / den := by
    rw [lt_div_iff₀ hdq]
    have e : (2 : ℚ) ^ (a - 1) = (2 : ℚ) ^ (a - b - 1) * (2 : ℚ) ^ b := by
      rw [← zpow_add₀ (two_ne_zero)]
      congr 1
      ring
    calc (2 : ℚ) ^ (a - b - 1) * den < (2 : ℚ) ^ (a - b - 1) * (2 : ℚ) ^ b := by
          apply mul_lt_mul_of_pos_left hb2
          positivity
      _ = (2 : ℚ) ^ (a - 1) := e.symm
      _ ≤ num := ha1
  by_cases hg : geTwoPow num den (a - b) = true
  · rw [if_pos hg]
    exact ⟨(geTwoPow_iff num den (a - b) hden).mp hg, hupper⟩
  · rw [if_neg hg]
    refine ⟨hlower.le, ?_⟩
    have e : a - b - 1 + 1 = a - b := by ring
    rw [e]
    exact lt_of_not_le (fun hle => hg ((geTwoPow_iff num den (a - b) hden).mpr hle))

/-- What `roundF32` returns: the value `q * 2^t` with `q` at most `2^24` and
`t` at least `-149`, within half a unit of the last place of `num / den`, as a
finite value when it is below `2^128` and as an infinity otherwise. -/
theorem roundF32_spec (neg : Bool) (num den : Nat) (hden : 0 < den) :
    ∃ (q : Nat) (t : Int), -149 ≤ t ∧ q ≤ 2 ^ 24
      ∧ |(q : ℚ) * (2 : ℚ) ^ t - (num : ℚ) / den| ≤ (2 : ℚ) ^ t / 2
      ∧ (0 < num → ∀ (q' : Nat) (t' : Int), -149 ≤ t' → q' < 2 ^ 24 →
          (num : ℚ) / den = (q' : ℚ) * (2 : ℚ) ^ t' → t ≤ t')
      ∧ ((roundF32 neg num den = .finite neg q t ∧ (q : ℚ) * (2 : ℚ) ^ t < (2 : ℚ) ^ (128 : Int))
        ∨ (roundF32 neg num den = .inf neg ∧ (2 : ℚ) ^ (128 : Int) ≤ (q : ℚ) * (2 : ℚ) ^ t)) := by
  by_cases hnum : num = 0
  · subst hnum
    refine ⟨0, 0, by norm_num, by norm_num, by simp, fun h => absurd h (lt_irrefl 0),
      Or.inl ⟨by simp [roundF32], by norm_num⟩⟩
  · have hpos : 0 < num := Nat.pos_of_ne_zero hnum
    obtain ⟨hlo, hhi⟩ := floorLog_spec num den hpos hden
    simp only [roundF32, hnum, if_false]
    generalize (if geTwoPow num den ((bitLen num : Int) - (bitLen den : Int)) = true
        then (bitLen num : Int) - (bitLen den : Int)
        else (bitLen num : Int) - (bitLen den : Int) - 1) = l at hlo hhi ⊢
    have hnear := roundAt_near num den (max (l - 23) (-149)) hden
    have hbound := roundAt_bound num den (max (l - 23) (-149)) hden
    generalize ht : max (l - 23) (-149) = t at hnear hbound ⊢
    have ht1 : l - 23 ≤ t := by rw [← ht]; exact le_max_left _ _
    have ht2 : -149 ≤ t := by rw [← ht]; exact le_max_right _ _
    generalize hq : roundAt num den t = q at hnear hbound ⊢
    have hp : (0 : ℚ) < (2 : ℚ) ^ t := by positivity
    -- the scaled value is below 2^24
    have hx : (num : ℚ) / den / (2 : ℚ) ^ t < (2 : ℚ) ^ (24 : Int) := by
      rw [div_lt_iff₀ hp, ← zpow_add₀ (two_ne_zero)]
      calc (num : ℚ) / den < (2 : ℚ) ^ (l + 1) := hhi
        _ ≤ (2 : ℚ) ^ (24 + t) := zpow_le_zpow_right₀ (by norm_num) (by omega)
    have hq24 : q ≤ 2 ^ 24 := by
      have h1 : (q : ℚ) < (2 : ℚ) ^ (24 : Int) + 1 := by
        have := (abs_le.mp hnear).2
        linarith
      have h2 : (q : ℚ) < ((2 ^ 24 + 1 : Nat) : ℚ) := by
        push_cast
        have e : (2 : ℚ) ^ (24 : Int) = 2 ^ 24 := by norm_num
        linarith
      have h3 : q < 2 ^ 24 + 1 := by exact_mod_cast h2
      omega
    have hmin : ∀ (q' : Nat) (t' : Int), -149 ≤ t' → q' < 2 ^ 24 →
        (num : ℚ) / den = (q' : ℚ) * (2 : ℚ) ^ t' → t ≤ t' := by
      intro q' t' ht' hq' hv
      have hq'q : (q' : ℚ) < (2 : ℚ) ^ (24 : Int) := by
        have : (q' : ℚ) < ((2 ^ 24 : Nat) : ℚ) := by exact_mod_cast hq'
        have e : (2 : ℚ) ^ (24 : Int) = ((2 ^ 24 : Nat) : ℚ) := by norm_num
        rw [e]
        exact this
      have hlt : (2 : ℚ) ^ l < (2 : ℚ) ^ (24 + t') := by
        calc (2 : ℚ) ^ l ≤ (num : ℚ) / den := hlo
          _ = (q' : ℚ) * (2 : ℚ) ^ t' := hv
          _ < (2 : ℚ) ^ (24 : Int) * (2 : ℚ) ^ t' :=
              mul_lt_mul_of_pos_right hq'q (by positivity)
          _ = (2 : ℚ) ^ (24 + t') := (zpow_add₀ (two_ne_zero) _ _).symm
      have hl : l < 24 + t' := (zpow_lt_zpow_iff_right₀ (by norm_num : (1 : ℚ) < 2)).mp hlt
      rw [← ht]
      exact max_le (by omega) ht'
    refine ⟨q, t, ht2, hq24, hbound, fun _ => hmin, ?_⟩
    by_cases hov : (128 : Int) ≤ (bitLen q : Int) - 1 + t
    · right
      refine ⟨by rw [if_pos hov], ?_⟩
      have hqpos : 0 < q := by
        by_contra hq0
        have hq0' : q = 0 := by omega
        have hb0 : bitLen q = 0 := by rw [hq0']; rfl
        rw [hb0] at hov
        have htl : t = l - 23 := by
          rcases max_choice (l - 23) (-149) with h | h
          · rw [← ht, h]
          · rw [← ht, h] at hov; simp at hov
        have hge : (2 : ℚ) ^ (23 : Int) ≤ (num : ℚ) / den / (2 : ℚ) ^ t := by
          rw [le_div_iff₀ hp, ← zpow_add₀ (two_ne_zero)]
          calc (2 : ℚ) ^ (23 + t) = (2 : ℚ) ^ l := by rw [htl]; congr 1; ring
            _ ≤ (num : ℚ) / den := hlo
        have := (abs_le.mp hnear).1
        rw [hq0'] at this
        have e : (2 : ℚ) ^ (23 : Int) = 8388608 := by norm_num
        simp only [Nat.cast_zero] at this
        linarith
      obtain ⟨_, hb⟩ := bitLen_zpow q hqpos
      calc (2 : ℚ) ^ (128 : Int) ≤ (2 : ℚ) ^ ((bitLen q : Int) - 1 + t) :=
            zpow_le_zpow_right₀ (by norm_num) hov
        _ = (2 : ℚ) ^ ((bitLen q : Int) - 1) * (2 : ℚ) ^ t := zpow_add₀ (two_ne_zero) _ _
        _ ≤ (q : ℚ) * (2 : ℚ) ^ t := mul_le_mul_of_nonneg_right
            (bitLen_zpow q hqpos).1 hp.le
    · left
      refine ⟨by rw [if_neg hov], ?_⟩
      by_cases hq0 : q = 0
      · rw [hq0]
        simp only [Nat.cast_zero, zero_mul]
        positivity
      · have hqpos : 0 < q := Nat.pos_of_ne_zero hq0
        calc (q : ℚ) * (2 : ℚ) ^ t < (2 : ℚ) ^ (bitLen q : Int) * (2 : ℚ) ^ t :=
              mul_lt_mul_of_pos_right (bitLen_zpow q hqpos).2 hp
          _ = (2 : ℚ) ^ ((bitLen q : Int) + t) := (zpow_add₀ (two_ne_zero) _ _).symm
          _ ≤ (2 : ℚ) ^ (128 : Int) := zpow_le_zpow_right₀ (by norm_num) (by omega)

/-- A value that is a float in range is returned unchanged by `roundF32`. -/
theorem roundF32_exact (neg : Bool) (num den : Nat) (hden : 0 < den) (q' : Nat) (t' : Int)
    (ht' : -149 ≤ t') (hq' : q' < 2 ^ 24)
    (hv : (num : ℚ) / den = (q' : ℚ) * (2 : ℚ) ^ t')
    (hrange : (num : ℚ) / den < (2 : ℚ) ^ (128 : Int)) :
    ∃ (q : Nat) (t : Int), roundF32 neg num den = .finite neg q t
      ∧ (q : ℚ) * (2 : ℚ) ^ t = (num : ℚ) / den := by
  obtain ⟨q, t, _, _, hbound, hmin, hres⟩ := roundF32_spec neg num den hden
  have hexact : (q : ℚ) * (2 : ℚ) ^ t = (num : ℚ) / den := by
    by_cases hnum : num = 0
    · subst hnum
      have hr : roundF32 neg 0 den = .finite neg 0 0 := by simp [roundF32]
      rcases hres with ⟨h1, _⟩ | ⟨h1, _⟩
      · rw [hr] at h1
        injection h1 with _ hq0 _
        rw [← hq0]
        simp
      · rw [hr] at h1
        cases h1
    · have htt : t ≤ t' := hmin (Nat.pos_of_ne_zero hnum) q' t' ht' hq' hv
      have hp : (0 : ℚ) < (2 : ℚ) ^ t := by positivity
      obtain ⟨d, hd⟩ : ∃ d : Nat, t' = t + d := ⟨(t' - t).toNat, by omega⟩
      have hN : (num : ℚ) / den = ((q' * 2 ^ d : Nat) : ℚ) * (2 : ℚ) ^ t := by
        rw [hv, hd, zpow_add₀ (two_ne_zero), zpow_natCast]
        push_cast
        ring
      rw [hN] at hbound ⊢
      have hdiff : |((q : ℚ) - ((q' * 2 ^ d : Nat) : ℚ))| ≤ 1 / 2 := by
        have e : (q : ℚ) * (2 : ℚ) ^ t - ((q' * 2 ^ d : Nat) : ℚ) * (2 : ℚ) ^ t
            = ((q : ℚ) - ((q' * 2 ^ d : Nat) : ℚ)) * (2 : ℚ) ^ t := by ring
        rw [e, abs_mul, abs_of_pos hp] at hbound
        have : |((q : ℚ) - ((q' * 2 ^ d : Nat) : ℚ))| * (2 : ℚ) ^ t ≤ 1 / 2 * (2 : ℚ) ^ t := by
          calc _ ≤ (2 : ℚ) ^ t / 2 := hbound
            _ = 1 / 2 * (2 : ℚ) ^ t := by ring
        exact le_of_mul_le_mul_right this hp
      have hqe : q = q' * 2 ^ d := by
        have h1 := (abs_le.mp hdiff).1
        have h2 := (abs_le.mp hdiff).2
        have h3 : ((q' * 2 ^ d : Nat) : ℚ) < (q : ℚ) + 1 := by linarith
        have h4 : (q : ℚ) < ((q' * 2 ^ d : Nat) : ℚ) + 1 := by linarith
        have h3' : q' * 2 ^ d < q + 1 := by exact_mod_cast h3
        have h4' : q < q' * 2 ^ d + 1 := by exact_mod_cast h4
        omega
      rw [hqe]
  refine ⟨q, t, ?_, hexact⟩
  rcases hres with ⟨h1, _⟩ | ⟨_, h2⟩
  · exact h1
  · rw [hexact] at h2
    exact absurd hrange (not_lt.mpr h2)

/-- The product `k * (m * 2^e)` as the quotient `roundF32` is applied to. -/
theorem scale_eq_roundF32 (k : Nat) (neg : Bool) (m : Nat) (e : Int) :
    ∃ (num den : Nat), 0 < den ∧ (CFloat.finite neg m e).scale k = roundF32 neg num den
      ∧ (num : ℚ) / den = (k : ℚ) * ((m : ℚ) * (2 : ℚ) ^ e) := by
  cases e with
  | ofNat j =>
    refine ⟨k * m * 2 ^ j, 1, Nat.one_pos, rfl, ?_⟩
    simp only [Int.ofNat_eq_coe, zpow_natCast]
    push_cast
    ring
  | negSucc j =>
    refine ⟨k * m, 2 ^ (j + 1), by positivity, rfl, ?_⟩
    simp only [zpow_negSucc]
    push_cast
    field_simp

theorem readStream_prefix : ∀ (ys : List CFloat) (n i : Nat) (v : Vector),
    Spec.beginsWith v.inputFile ys = true → ys.length ≤ n →
      ∀ j y, ys[j]? = some y →
        (readStream n i v).value (i + j) = y.scale XYUV_COORDINATE_SCALAR := by
  intro ys
  induction ys with
  | nil => intro n i v _ _ j y hy; simp at hy
  | cons y ys ih =>
    intro n i v hh hn
    cases n with
    | zero => simp at hn
    | succ n =>
      simp only [Spec.beginsWith, Bool.and_eq_true, beq_iff_eq] at hh
      obtain ⟨⟨h1, h2⟩, h3⟩ := hh
      have hne : (scanFloat v.inputFile).result ≠ EOF := by rw [h1]; exact one_ne_EOF
      simp only [readStream, hne, if_false, h2, Option.getD_some]
      have ha := ih n (i + 1)
        { inputFile := (scanFloat v.inputFile).rest, totalValues := v.totalValues,
          capacity := v.capacity,
          value := Function.update v.value i (y.scale XYUV_COORDINATE_SCALAR) } h3
        (by simpa using hn)
      intro j z hz
      cases j with
      | zero =>
        simp only [List.getElem?_cons_zero, Option.some.injEq] at hz
        subst hz
        show (readStream n (i + 1) _).value i = _
        rw [readStream_value_lt n (i + 1) _ i (by omega)]
        exact Function.update_same _ _ _
      | succ j =>
        simp only [List.getElem?_cons_succ] at hz
        have := ha j z hz
        rw [show i + (j + 1) = i + 1 + j by omega]
        exact this

/-! ## Lemmas: the array elements the emitter reads -/

theorem mem_cutLoopReads (h : Half) (n : Nat) : ∀ (i : Nat) (k : Spec.Key) (j : Nat),
    (k, j) ∈ cutLoopReads h n i ↔ k.2.1 = h ∧ i ≤ j ∧ j < i + n := by
  induction n with
  | zero =>
    intro i k j
    simp only [cutLoopReads, List.not_mem_nil, false_iff]
    omega
  | succ n ih =>
    intro i k j
    obtain ⟨a, h', d⟩ := k
    simp only [cutLoopReads, List.mem_append, ih, cutBodyReads, List.mem_cons, Prod.mk.injEq,
      List.mem_singleton, List.not_mem_nil, or_false]
    constructor
    · rintro ((⟨⟨_, rfl, _⟩, rfl⟩ | ⟨⟨_, rfl, _⟩, rfl⟩ | ⟨⟨_, rfl, _⟩, rfl⟩ | ⟨⟨_, rfl, _⟩, rfl⟩)
        | ⟨hh, h1, h2⟩)
      · exact ⟨rfl, le_refl _, by omega⟩
      · exact ⟨rfl, le_refl _, by omega⟩
      · exact ⟨rfl, le_refl _, by omega⟩
      · exact ⟨rfl, le_refl _, by omega⟩
      · exact ⟨hh, by omega, by omega⟩
    · rintro ⟨hh, h1, h2⟩
      subst hh
      by_cases hj : j = i
      · left
        subst hj
        cases a <;> cases d <;> simp
      · right
        exact ⟨rfl, by omega, by omega⟩

theorem mem_OutputGCodeReads (s : State) (k : Spec.Key) (j : Nat) :
    (k, j) ∈ OutputGCodeReads s
      ↔ j < (s.thisVector .Tip k.2.1 .X).totalValues.toNat := by
  obtain ⟨a, h, d⟩ := k
  simp only [OutputGCodeReads, List.mem_append, mem_cutLoopReads]
  cases h <;> simp

theorem load_stages {env : Env} {s : State} (hload : load env = .ok s) :
    ∃ s0 s1, OpenDataFiles env initState = .ok s0
      ∧ AllocateMemory env (CheckVectorConsistency s0) = .ok s1
      ∧ s = ReadVectorData s1
      ∧ ∀ a h d, (s0.thisVector a h d).totalValues = (s.thisVector a h d).totalValues := by
  unfold load at hload
  split at hload
  · cases hload
  · next s0 h0 =>
    split at hload
    · cases hload
    · next s1 h1 =>
      simp only [Except.ok.injEq] at hload
      subst hload
      refine ⟨s0, s1, h0, h1, rfl, fun a h d => ?_⟩
      rw [(ReadVectorData_frame s1).2, (AllocateMemory_ok h1).2, (CheckVectorConsistency_frame s0).1]

/-! ## Lemmas: array reads checked against the buffers -/

theorem readsInBuffer_cutBody (tv : Side → Half → Dimension → Vector) (h : Half) (i : Nat) :
    (∀ r ∈ cutBodyReads h i, Spec.inBuffer tv r)
      ↔ (i < (tv .Root h .X).capacity ∧ i < (tv .Root h .Y).capacity
          ∧ i < (tv .Tip h .X).capacity ∧ i < (tv .Tip h .Y).capacity) := by
  simp [cutBodyReads, Spec.inBuffer]

/-- The checked body returns exactly when its four reads lie inside their
buffers, and then returns what `cutBody` returns. -/
theorem cutBodyChecked_eq (h : Half) (i : Nat) (s : State) :
    ((∀ r ∈ cutBodyReads h i, Spec.inBuffer s.thisVector r) →
        cutBodyChecked h i s = some (cutBody h i s))
      ∧ (¬ (∀ r ∈ cutBodyReads h i, Spec.inBuffer s.thisVector r) →
        cutBodyChecked h i s = none) := by
  rw [readsInBuffer_cutBody]
  constructor
  · rintro ⟨h1, h2, h3, h4⟩
    simp only [cutBodyChecked, readCell, fprintfOut, h1, h2, h3, h4, if_true, cutBody]
  · intro hn
    simp only [cutBodyChecked, readCell, fprintfOut]
    by_cases h1 : i < (s.thisVector .Root h .X).capacity
    · by_cases h2 : i < (s.thisVector .Root h .Y).capacity
      · by_cases h3 : i < (s.thisVector .Tip h .X).capacity
        · have h4 : ¬ i < (s.thisVector .Tip h .Y).capacity := fun h4 => hn ⟨h1, h2, h3, h4⟩
          simp only [h1, h2, h3, h4, if_true, if_false]
        · simp only [h1, h2, h3, if_true, if_false]
      · simp only [h1, h2, if_true, if_false]
    · simp only [h1, if_false]

theorem fprintfOut_thisVector (call : FormatCall) (s : State) :
    (fprintfOut call s).2.thisVector = s.thisVector := rfl

theorem cutBody_thisVector (h : Half) (i : Nat) (s : State) :
    (cutBody h i s).thisVector = s.thisVector := by
  rw [cutBody_eq]

theorem cutLoop_thisVector (h : Half) (n i : Nat) (s : State) :
    (cutLoop h n i s).thisVector = s.thisVector := by
  rw [cutLoop_eq]

/-- The checked loop returns exactly when all the reads of the loop lie inside
their buffers, and then returns what `cutLoop` returns. -/
theorem cutLoopChecked_eq (h : Half) (n : Nat) :
    ∀ (i : Nat) (s : State) (tv : Side → Half → Dimension → Vector), s.thisVector = tv →
      ((∀ r ∈ cutLoopReads h n i, Spec.inBuffer tv r) →
          cutLoopChecked h n i s = some (cutLoop h n i s))
        ∧ (¬ (∀ r ∈ cutLoopReads h n i, Spec.inBuffer tv r) →
          cutLoopChecked h n i s = none) := by
  induction n with
  | zero =>
    intro i s tv _
    refine ⟨fun _ => rfl, fun hn => absurd ?_ hn⟩
    intro r hr
    cases hr
  | succ n ih =>
    intro i s tv htv
    subst htv
    obtain ⟨hb1, hb2⟩ := cutBodyChecked_eq h i s
    obtain ⟨hl1, hl2⟩ := ih (i + 1) (cutBody h i s) s.thisVector (cutBody_thisVector h i s)
    simp only [cutLoopReads, List.mem_append, cutLoopChecked, cutLoop]
    constructor
    · intro hall
      rw [hb1 (fun r hr => hall r (Or.inl hr))]
      exact hl1 (fun r hr => hall r (Or.inr hr))
    · intro hn
      by_cases hbody : ∀ r ∈ cutBodyReads h i, Spec.inBuffer s.thisVector r
      · rw [hb1 hbody]
        apply hl2
        intro hrest
        apply hn
        intro r hr
        rcases hr with hr | hr
        · exact hbody r hr
        · exact hrest r hr
      · rw [hb2 hbody]

/-- The checked emitter returns exactly when every array read of `OutputGCode`
lies inside the buffer read, and then returns what `OutputGCode` returns. -/
theorem OutputGCodeChecked_eq (s : State) :
    ((∀ r ∈ OutputGCodeReads s, Spec.inBuffer s.thisVector r) →
        OutputGCodeChecked s = some (OutputGCode s))
      ∧ (¬ (∀ r ∈ OutputGCodeReads s, Spec.inBuffer s.thisVector r) →
        OutputGCodeChecked s = none) := by
  obtain ⟨hu1, hu2⟩ := cutLoopChecked_eq .Upper
    (s.thisVector .Tip .Upper .X).totalValues.toNat 0 (fprintfOut GCODE_HEADER s).2
    s.thisVector rfl
  obtain ⟨hl1, hl2⟩ := cutLoopChecked_eq .Lower
    (s.thisVector .Tip .Lower .X).totalValues.toNat 0
    (fprintfOut GCODE_UPPERLOWER_TRANSITION
      (cutLoop .Upper (s.thisVector .Tip .Upper .X).totalValues.toNat 0
        (fprintfOut GCODE_HEADER s).2)).2
    s.thisVector
    (by rw [fprintfOut_thisVector, cutLoop_thisVector, fprintfOut_thisVector])
  simp only [OutputGCodeReads, List.mem_append]
  by_cases hup : ∀ r ∈ cutLoopReads .Upper (s.thisVector .Tip .Upper .X).totalValues.toNat 0,
      Spec.inBuffer s.thisVector r
  · by_cases hlo : ∀ r ∈ cutLoopReads .Lower (s.thisVector .Tip .Lower .X).totalValues.toNat 0,
        Spec.inBuffer s.thisVector r
    · refine ⟨fun _ => ?_, fun hn => absurd (fun r hr => hr.elim (hup r) (hlo r)) hn⟩
      simp only [OutputGCodeChecked, OutputGCode, fprintfOut_thisVector, hu1 hup,
        cutLoop_thisVector, hl1 hlo]
      split <;> rfl
    · refine ⟨fun hall => absurd (fun r hr => hall r (Or.inr hr)) hlo, fun _ => ?_⟩
      simp only [OutputGCodeChecked, fprintfOut_thisVector, hu1 hup, cutLoop_thisVector,
        hl2 hlo]
  · refine ⟨fun hall => absurd (fun r hr => hall r (Or.inl hr)) hup, fun _ => ?_⟩
    simp only [OutputGCodeChecked, fprintfOut_thisVector, hu2 hup]

theorem readStream_capacity (n : Nat) : ∀ (i : Nat) (v : Vector),
    (readStream n i v).capacity = v.capacity := by
  induction n with
  | zero => intro i v; rfl
  | succ n ih =>
    intro i v
    simp only [readStream]
    split
    · rfl
    · rw [ih]

theorem allocBody_capacity {env : Env} {a : Side} {h : Half} {d : Dimension} {s s' : State}
    (hr : allocBody env a h d s = .ok s') :
    (s'.thisVector a h d).capacity = (s'.thisVector a h d).totalValues.toNat
      ∧ ∀ a' h' d', (s.thisVector a' h' d').capacity = (s.thisVector a' h' d').totalValues.toNat →
          (s'.thisVector a' h' d').capacity = (s'.thisVector a' h' d').totalValues.toNat := by
  simp only [allocBody] at hr
  split at hr
  · cases hr
  · simp only [Except.ok.injEq] at hr
    subst hr
    refine ⟨by simp only [setVector_same], ?_⟩
    intro a' h' d' hold
    simp only [setVector]
    split
    · rfl
    · exact hold

/-- After `AllocateMemory` the buffer of every vector has as many elements as
the vector declares values. -/
theorem AllocateMemory_capacity {env : Env} {s s' : State}
    (hr : AllocateMemory env s = .ok s') :
    ∀ a h d, (s'.thisVector a h d).capacity = (s'.thisVector a h d).totalValues.toNat := by
  unfold AllocateMemory at hr
  exact nested_ok_all
    (fun a h d t => (t.thisVector a h d).capacity = (t.thisVector a h d).totalValues.toNat)
    (allocBody env) (fun a h d s1 s2 hr1 => (allocBody_capacity hr1).1)
    (fun a h d a' h' d' s1 s2 hp hr1 => (allocBody_capacity hr1).2 a h d hp) s s' hr

/-- After a successful load the buffer of every vector still has as many
elements as the vector declares values. -/
theorem load_capacity {env : Env} {s : State} (hload : load env = .ok s) :
    ∀ a h d, (s.thisVector a h d).capacity = (s.thisVector a h d).totalValues.toNat := by
  obtain ⟨s0, s1, _, h1, hs, _⟩ := load_stages hload
  intro a h d
  have hv := (ReadVectorData_eq s1).2.2 (a, h, d)
  simp only at hv
  rw [hs, hv, readStream_capacity, readStream_totalValues]
  exact AllocateMemory_capacity h1 a h d

/-! ## The claims -/

set_option maxRecDepth 100000 in
/-- C4 fails as stated: the Loader accepts a file set in which TIPUPPERX holds
the sample token `inf`; line 16 of the output then reads
`G1 F0.60 X0.000000 Y0.000000 Uinf V0.000000`, which does not match the
pattern. -/
theorem C4_counterexample :
    load envInf = .ok (loaded envInf)
      ∧ (main envInf).1 = EXIT_SUCCESS
      ∧ (Spec.lines (main envInf).2.outputFile)[15]?
        = some "G1 F0.60 X0.000000 Y0.000000 Uinf V0.000000"
      ∧ Spec.cuttingLine (loaded envInf).thisVector .Upper 0
        = "G1 F0.60 X0.000000 Y0.000000 Uinf V0.000000\n"
      ∧ Spec.matchesCuttingPattern (Spec.cuttingLine (loaded envInf).thisVector .Upper 0)
        = false :=
  ⟨loads_eq (by decide!), by decide!, by decide!, by decide!, by decide!⟩

/-- C4, amended: a cutting line emitted by either loop (the text the two
`fprintf` calls of one iteration append to the output) matches
`^G1 F0\.60 X-?\d+\.\d{6} Y-?\d+\.\d{6} U-?\d+\.\d{6} V-?\d+\.\d{6}\n$`
whenever the four values it prints are finite. -/
theorem C4_finite_line_matches_pattern (s : State) (h : Half) (i : Nat)
    (hfin : ∀ a d, ((s.thisVector a h d).value i).isFinite = true) :
    cutBody h i s = { s with outputFile := s.outputFile ++ Spec.cuttingLine s.thisVector h i }
      ∧ Spec.matchesCuttingPattern (Spec.cuttingLine s.thisVector h i) = true :=
  ⟨cutBody_eq h i s, matches_cuttingLine s.thisVector h i hfin⟩

set_option maxRecDepth 100000 in
/-- Scenario S1 for C4: the values at index 0 are finite and the upper line
matches the pattern. -/
theorem C4_finite_line_matches_pattern_witness :
    (∀ a d, (((loaded envS1).thisVector a .Upper d).value 0).isFinite = true)
      ∧ Spec.cuttingLine (loaded envS1).thisVector .Upper 0
        = "G1 F0.60 X0.000000 Y0.000000 U0.000000 V0.000000\n"
      ∧ Spec.matchesCuttingPattern (Spec.cuttingLine (loaded envS1).thisVector .Upper 0)
        = true :=
  have hfin : ∀ a d, (((loaded envS1).thisVector a .Upper d).value 0).isFinite = true :=
    fun a d => by cases a <;> cases d <;> decide!
  ⟨hfin, by decide!, (C4_finite_line_matches_pattern (loaded envS1) .Upper 0 hfin).2⟩

/-- C6 fails as stated: of the four lines between `(Wire reset)` and the blank
line before `(Stop)` in the footer, the second, `G0 Y12.000000 V12.000000`,
does not start with `G1 `. -/
theorem C6_counterexample :
    (Spec.wireResetLines (format GCODE_FOOTER.1 GCODE_FOOTER.2))[1]?
        = some "G0 Y12.000000 V12.000000"
      ∧ ¬ (∀ l ∈ Spec.wireResetLines (format GCODE_FOOTER.1 GCODE_FOOTER.2),
            Spec.startsWith "G1 " l = true) := by decide!

/-- C6, amended: in the footer block there are exactly four lines between
`(Wire reset)` and the blank line preceding `(Stop)`; the first starts with
`G1 ` (the move command), the other three start with `G0 `. -/
theorem C6_footer_wire_reset_lines :
    Spec.wireResetLines (format GCODE_FOOTER.1 GCODE_FOOTER.2)
        = ["G1 X12.000000 U12.000000", "G0 Y12.000000 V12.000000",
           "G0 X-12.000000 U-12.000000", "G0 Y-12.000000 V-12.000000"]
      ∧ (Spec.wireResetLines (format GCODE_FOOTER.1 GCODE_FOOTER.2)).length = 4
      ∧ ((Spec.wireResetLines (format GCODE_FOOTER.1 GCODE_FOOTER.2)).map
          (Spec.startsWith "G1 ")) = [true, false, false, false]
      ∧ ((Spec.wireResetLines (format GCODE_FOOTER.1 GCODE_FOOTER.2)).map
          (Spec.startsWith "G0 ")) = [false, true, true, true]
      ∧ (Spec.lines (format GCODE_FOOTER.1 GCODE_FOOTER.2))
        = ["(End airfoil lower half)", "", "(Wire reset)", "G1 X12.000000 U12.000000",
           "G0 Y12.000000 V12.000000", "G0 X-12.000000 U-12.000000",
           "G0 Y-12.000000 V-12.000000", "", "(Stop)", "M30"] := by decide!

/-- C7: for every assignment of the eight declared counts,
`CheckVectorConsistency` returns (it has no exit), changes neither the vectors
nor the output, appends the Inconsistency warning to the standard error stream
exactly once when the eight counts are not all equal and appends nothing when
they are all equal; so when no warning is emitted the eight counts are equal. -/
theorem C7_consistency_warning_once (s : State) :
    (CheckVectorConsistency s).thisVector = s.thisVector
      ∧ (CheckVectorConsistency s).outputFile = s.outputFile
      ∧ (Spec.allCountsEqual s.thisVector → (CheckVectorConsistency s).stderr = s.stderr)
      ∧ (¬ Spec.allCountsEqual s.thisVector → (CheckVectorConsistency s).stderr
          = s.stderr
            ++ "* Note: You should ensure all vector files list the same number of data points\n")
      ∧ ((CheckVectorConsistency s).stderr = s.stderr → Spec.allCountsEqual s.thisVector) := by
  refine ⟨(CheckVectorConsistency_frame s).1, (CheckVectorConsistency_frame s).2, ?_, ?_, ?_⟩
  · intro hall
    rw [CheckVectorConsistency_of_equal s hall]
  · intro hall
    rw [CheckVectorConsistency_of_unequal s hall]
    rfl
  · intro hsame
    by_contra hall
    rw [CheckVectorConsistency_of_unequal s hall] at hsame
    exact append_ne_self _ _ (by decide) hsame

set_option maxRecDepth 100000 in
/-- C8 fails as stated: ROOTUPPERX starts with the token `3.5`, which is not
an integer, yet the Loader accepts the stream with the count 3 and the program
runs to a successful exit without any message. -/
theorem C8_counterexample :
    env35.fopen "ROOTUPPERX" = some "3.5\n0.0 0.0 0.0\n"
      ∧ (scanInt "3.5\n0.0 0.0 0.0\n".data).assigned = some 3
      ∧ load env35 = .ok (loaded env35)
      ∧ ((loaded env35).thisVector .Root .Upper .X).totalValues = 3
      ∧ (main env35).1 = EXIT_SUCCESS
      ∧ (main env35).2.stderr = "" :=
  ⟨by decide!, by decide!, loads_eq (by decide!), by decide!, by decide!, by decide!⟩

/-- C8, amended: a stream that opens, all streams before it having been
accepted, makes the program exit with the failure status and the HeaderParse
message naming its file, nothing written to the output, whenever the `%d`
conversion stores no value (empty stream, or a first token such as `abc` with
no leading digits) or stores a value `<= 0` (such as `0`); a stream is accepted
exactly when the conversion stores a positive value, which includes a first
token such as `3.5`, read as 3; a count of `2^63` or more saturates at the range
of `long`, is stored as -1 and is rejected.  When all eight streams are accepted
`OpenDataFiles` returns without a message, and whenever it returns every one of
the eight declared counts is positive (and every stream was accepted). -/
theorem C8_header_check (env : Env) :
    (∀ k content, (∀ k' ∈ Spec.keysBefore k, Spec.headerOk env k' = true) →
        env.fopen (Spec.fileName k) = some content → Spec.acceptsHeader content = false →
        (main env).1 = EXIT_FAILURE
          ∧ (main env).2.stderr = "* Oops -- Can't read " ++ Spec.fileName k
              ++ ". The first line should be the 'Total Values'.\n"
          ∧ (main env).2.outputFile = "")
      ∧ (∀ content, Spec.acceptsHeader content = true
          ↔ ∃ n, (scanInt content.data).assigned = some n ∧ 0 < n)
      ∧ ((∀ k, Spec.headerOk env k = true) →
          ∃ s', OpenDataFiles env initState = .ok s' ∧ s'.stderr = "")
      ∧ (∀ s', OpenDataFiles env initState = .ok s' →
          ∀ a h d, 0 < (s'.thisVector a h d).totalValues ∧ Spec.headerOk env (a, h, d) = true)
      ∧ Spec.acceptsHeader "" = false ∧ Spec.acceptsHeader "abc" = false
      ∧ Spec.acceptsHeader "0\n" = false ∧ Spec.acceptsHeader "-3\n" = false
      ∧ Spec.acceptsHeader "3\n" = true ∧ Spec.acceptsHeader "3.5\n" = true
      ∧ (scanInt "9223372036854775808\n".data).assigned = some (-1)
      ∧ Spec.acceptsHeader "9223372036854775808\n" = false
      ∧ Spec.acceptsHeader "18446744073709551617\n" = false := by
  refine ⟨?_, ?_, ?_, ?_, by decide!, by decide!, by decide!, by decide!, by decide!,
    by decide!, by decide!, by decide!, by decide!⟩
  · intro k content hbefore hopen hrej
    obtain ⟨post, hkeys⟩ := keys_split k
    have hk : Spec.headerOk env k = false := by
      simp only [Spec.headerOk, hopen, hrej]
    have h := main_first_rejected env (Spec.keysBefore k) k post hkeys hbefore hk
    rw [hopen] at h
    exact ⟨h.1, h.2.2, h.2.1⟩
  · intro content
    simp only [Spec.acceptsHeader]
    constructor
    · intro h
      split at h
      · next n hn => exact ⟨n, hn, of_decide_eq_true h⟩
      · cases h
    · rintro ⟨n, hn, hpos⟩
      rw [hn]
      exact decide_eq_true hpos
  · intro hall
    obtain ⟨s', hs', herr⟩ := open_run_ok env Spec.keys { initState with outputFile := "" }
      (fun k _ => hall k)
    exact ⟨s', by rw [OpenDataFiles_flat]; exact hs', herr⟩
  · intro s' hs' a h d
    refine ⟨(OpenDataFiles_ok hs').2.2 a h d, ?_⟩
    cases hrej : Spec.headerOk env (a, h, d) with
    | true => rfl
    | false =>
      obtain ⟨pre, k0, post, hkeys, hpre, hk0⟩ :=
        exists_first_rejected env Spec.keys (a, h, d) (mem_keys _) hrej
      obtain ⟨e, he, _⟩ := open_run_error env k0 post hk0 pre
        { initState with outputFile := "" } hpre rfl
      rw [OpenDataFiles_flat, hkeys, he] at hs'
      cases hs'

/-- Scenario S4 for C8: ROOTUPPERX contains `0`; the program exits with the
failure status and the message mentions 'Total Values'. -/
theorem C8_header_check_witness :
    envS4.fopen (Spec.fileName (.Root, .Upper, .X)) = some "0\n"
      ∧ (main envS4).1 = EXIT_FAILURE
      ∧ (main envS4).2.stderr
        = "* Oops -- Can't read ROOTUPPERX. The first line should be the 'Total Values'.\n"
      ∧ (main envS4).2.outputFile = "" :=
  have h := (C8_header_check envS4).1 (.Root, .Upper, .X) "0\n"
    (fun _ hk => absurd hk (List.not_mem_nil _)) (by decide!) (by decide!)
  ⟨by decide!, h.1, h.2.1.trans (by decide!), h.2.2⟩

/-- C9 fails as stated: ROOTUPPERY cannot be opened, but ROOTUPPERX, which
comes first, declares the count 0; the program exits with the failure status
and the message is the HeaderParse message of ROOTUPPERX, which contains
neither the name ROOTUPPERY nor the text `Are all vector files present?`. -/
theorem C9_counterexample :
    envTwoFaults.fopen "ROOTUPPERY" = none
      ∧ (main envTwoFaults).1 = EXIT_FAILURE
      ∧ (main envTwoFaults).2.stderr
        = "* Oops -- Can't read ROOTUPPERX. The first line should be the 'Total Values'.\n"
      ∧ Spec.contains (main envTwoFaults).2.stderr "ROOTUPPERY" = false
      ∧ Spec.contains (main envTwoFaults).2.stderr "Are all vector files present?" = false := by
  decide!

/-- C9, amended: the eight file names are the concatenated string forms; if
one of the files cannot be opened the program exits with the failure status
and nothing at all has been written to the output (every fatal error of the
Loader leaves the output empty); the message is `Can't open <name>. Are all
vector files present?` for that file when every file before it in the loop
order was opened and passed its header check, as the program exits at the
first fatal error. -/
theorem C9_missing_file_is_fatal (env : Env) (k : Spec.Key)
    (hopen : env.fopen (Spec.fileName k) = none) :
    (main env).1 = EXIT_FAILURE
      ∧ (main env).2.outputFile = ""
      ∧ ((∀ k' ∈ Spec.keysBefore k, Spec.headerOk env k' = true) →
          (main env).2.stderr
            = "* Oops -- Can't open " ++ Spec.fileName k ++ ". Are all vector files present?\n"
          ∧ Spec.contains (main env).2.stderr "Are all vector files present?" = true)
      ∧ (∀ s, load env = .error s → main env = (EXIT_FAILURE, s) ∧ s.outputFile = "")
      ∧ Spec.keys.map Spec.fileName
        = ["ROOTUPPERX", "ROOTUPPERY", "ROOTLOWERX", "ROOTLOWERY",
           "TIPUPPERX", "TIPUPPERY", "TIPLOWERX", "TIPLOWERY"] := by
  have hk : Spec.headerOk env k = false := by
    simp only [Spec.headerOk, hopen]
  refine ⟨?_, ?_, ?_, ?_, by decide⟩
  · obtain ⟨pre, k0, post, hkeys, hpre, hk0⟩ :=
      exists_first_rejected env Spec.keys k (mem_keys _) hk
    exact (main_first_rejected env pre k0 post hkeys hpre hk0).1
  · obtain ⟨pre, k0, post, hkeys, hpre, hk0⟩ :=
      exists_first_rejected env Spec.keys k (mem_keys _) hk
    exact (main_first_rejected env pre k0 post hkeys hpre hk0).2.1
  · intro hbefore
    obtain ⟨post, hkeys⟩ := keys_split k
    have h := (main_first_rejected env (Spec.keysBefore k) k post hkeys hbefore hk).2.2
    rw [hopen] at h
    refine ⟨h, ?_⟩
    rw [h]
    obtain ⟨a, hh, d⟩ := k
    cases a <;> cases hh <;> cases d <;> decide
  · intro s hs
    refine ⟨?_, load_error_outputFile hs⟩
    simp only [main, hs]

/-- Scenario S3 for C9: ROOTUPPERX is missing; the program exits with the
failure status, names the file and writes nothing to the output. -/
theorem C9_missing_file_is_fatal_witness :
    envS3.fopen (Spec.fileName (.Root, .Upper, .X)) = none
      ∧ (main envS3).1 = EXIT_FAILURE
      ∧ (main envS3).2.outputFile = ""
      ∧ (main envS3).2.stderr
        = "* Oops -- Can't open ROOTUPPERX. Are all vector files present?\n" :=
  have h := C9_missing_file_is_fatal envS3 (.Root, .Upper, .X) (by decide!)
  ⟨by decide!, h.1, h.2.1,
   (h.2.2.1 (fun _ hk => absurd hk (List.not_mem_nil _))).1.trans (by decide!)⟩

set_option maxRecDepth 100000 in
/-- C11 fails as stated: TIPUPPERX holds the token `1e38`, read as a finite
`float` below `2^127`, and the value stored for it is an infinity, printed as
`inf`; TIPUPPERY holds the token `0.01`, read as `10737418 * 2^-30`, and the
value stored for it is `13421772 * 2^-28`, which is not five times the value
read. -/
theorem C11_counterexample :
    load envRounding = .ok (loaded envRounding)
      ∧ (scanFloat "\n1e38\n".data).assigned = some (.finite false 9860761 103)
      ∧ ((9860761 : ℚ) * (2 : ℚ) ^ (103 : Int) < (2 : ℚ) ^ (127 : Int))
      ∧ ((loaded envRounding).thisVector .Tip .Upper .X).value 0 = .inf false
      ∧ (scanFloat "\n0.01\n".data).assigned = some (.finite false 10737418 (-30))
      ∧ ((loaded envRounding).thisVector .Tip .Upper .Y).value 0
        = .finite false 13421772 (-28)
      ∧ (13421772 : ℚ) * (2 : ℚ) ^ (-28 : Int)
        ≠ 5 * ((10737418 : ℚ) * (2 : ℚ) ^ (-30 : Int))
      ∧ (Spec.lines (main envRounding).2.outputFile)[15]?
        = some "G1 F0.60 X0.000000 Y0.000000 Uinf V0.050000" :=
  ⟨loads_eq (by decide!), by decide!, by norm_num, by decide!, by decide!, by decide!,
   by norm_num, by decide!⟩

/-- C11, amended: every sample token successfully read from a stream (the
stream begins with the samples `ys`, no more of them than the declared count)
is stored by `ReadVectorData` at its index as `y * 5.0` converted to `float`,
the scalar being applied once; `OutputGCode` changes no stored value and prints
each field with `%f` from the stored value.  The conversion rounds: the stored
magnitude is `q * 2^t` with `q <= 2^24` and `t >= -149`, within half a unit of
its last place of five times the magnitude read, finite when below `2^128` and
an infinity otherwise; it is exactly five times the magnitude read whenever
that product is itself such a value with `q < 2^24` below `2^128`.  Infinities
and NaNs are kept. -/
theorem C11_stored_value_is_rounded_product (s : State) (k : Spec.Key) (ys : List CFloat)
    (hbegins : Spec.beginsWith (s.thisVector k.1 k.2.1 k.2.2).inputFile ys = true)
    (hlen : (ys.length : Int) ≤ (s.thisVector k.1 k.2.1 k.2.2).totalValues) :
    (∀ j y, ys[j]? = some y →
        ((ReadVectorData s).thisVector k.1 k.2.1 k.2.2).value j
          = y.scale XYUV_COORDINATE_SCALAR)
      ∧ XYUV_COORDINATE_SCALAR = 5
      ∧ OutputGCode (ReadVectorData s)
        = .ok { (ReadVectorData s) with
            outputFile :=
              ((ReadVectorData s).outputFile ++ Spec.gcodeText (ReadVectorData s).thisVector) }
      ∧ (∀ (tv : Side → Half → Dimension → Vector) (h : Half) (i : Nat),
          Spec.cuttingLine tv h i
            = "G1 F0.60 X" ++ fmtF ((tv .Root h .X).value i)
              ++ " Y" ++ fmtF ((tv .Root h .Y).value i)
              ++ " U" ++ fmtF ((tv .Tip h .X).value i)
              ++ " V" ++ fmtF ((tv .Tip h .Y).value i) ++ "\n")
      ∧ (∀ (neg : Bool) (m : Nat) (e : Int), ∃ (q : Nat) (t : Int), -149 ≤ t ∧ q ≤ 2 ^ 24
          ∧ |(q : ℚ) * (2 : ℚ) ^ t - 5 * ((m : ℚ) * (2 : ℚ) ^ e)| ≤ (2 : ℚ) ^ t / 2
          ∧ (((CFloat.finite neg m e).scale XYUV_COORDINATE_SCALAR = .finite neg q t
              ∧ (q : ℚ) * (2 : ℚ) ^ t < (2 : ℚ) ^ (128 : Int))
            ∨ ((CFloat.finite neg m e).scale XYUV_COORDINATE_SCALAR = .inf neg
              ∧ (2 : ℚ) ^ (128 : Int) ≤ (q : ℚ) * (2 : ℚ) ^ t)))
      ∧ (∀ (neg : Bool) (m : Nat) (e : Int) (q' : Nat) (t' : Int), -149 ≤ t' → q' < 2 ^ 24 →
          5 * ((m : ℚ) * (2 : ℚ) ^ e) = (q' : ℚ) * (2 : ℚ) ^ t' →
          5 * ((m : ℚ) * (2 : ℚ) ^ e) < (2 : ℚ) ^ (128 : Int) →
          ∃ (q : Nat) (t : Int),
            (CFloat.finite neg m e).scale XYUV_COORDINATE_SCALAR = .finite neg q t
              ∧ (q : ℚ) * (2 : ℚ) ^ t = 5 * ((m : ℚ) * (2 : ℚ) ^ e))
      ∧ (∀ neg : Bool, (CFloat.inf neg).scale XYUV_COORDINATE_SCALAR = .inf neg
          ∧ (CFloat.nan neg).scale XYUV_COORDINATE_SCALAR = .nan neg) := by
  refine ⟨?_, rfl, OutputGCode_eq _, fun _ _ _ => rfl, ?_, ?_, fun _ => ⟨rfl, rfl⟩⟩
  · intro j y hy
    rw [(ReadVectorData_eq s).2.2 k]
    have h := readStream_prefix ys (s.thisVector k.1 k.2.1 k.2.2).totalValues.toNat 0
      (s.thisVector k.1 k.2.1 k.2.2) hbegins (by omega) j y hy
    rwa [Nat.zero_add] at h
  · intro neg m e
    obtain ⟨num, den, hden, hsc, hv⟩ := scale_eq_roundF32 XYUV_COORDINATE_SCALAR neg m e
    obtain ⟨q, t, ht, hq, hb, _, hres⟩ := roundF32_spec neg num den hden
    have h5 : ((XYUV_COORDINATE_SCALAR : Nat) : ℚ) = 5 := by norm_num [XYUV_COORDINATE_SCALAR]
    rw [hv, h5] at hb
    rw [← hsc] at hres
    exact ⟨q, t, ht, hq, hb, hres⟩
  · intro neg m e q' t' ht' hq' hv' hrange
    obtain ⟨num, den, hden, hsc, hv⟩ := scale_eq_roundF32 XYUV_COORDINATE_SCALAR neg m e
    have h5 : ((XYUV_COORDINATE_SCALAR : Nat) : ℚ) = 5 := by norm_num [XYUV_COORDINATE_SCALAR]
    rw [h5] at hv
    obtain ⟨q, t, hres, hval⟩ := roundF32_exact neg num den hden q' t' ht' hq'
      (by rw [hv]; exact hv') (by rw [hv]; exact hrange)
    exact ⟨q, t, by rw [hsc]; exact hres, by rw [hval, hv]⟩

set_option maxRecDepth 100000 in
/-- Scenario S2 for C11: all eight files contain the count 1 and the sample
1.0; the sample is stored as 5.0 and every cutting line reads
`G1 F0.60 X5.000000 Y5.000000 U5.000000 V5.000000`. -/
theorem C11_stored_value_is_rounded_product_witness :
    Spec.beginsWith ((preRead envS2).thisVector .Root .Upper .X).inputFile
        [floatOf false 1 10 0] = true
      ∧ (([floatOf false 1 10 0].length : Nat) : Int)
        ≤ ((preRead envS2).thisVector .Root .Upper .X).totalValues
      ∧ load envS2 = .ok (ReadVectorData (preRead envS2))
      ∧ ((ReadVectorData (preRead envS2)).thisVector .Root .Upper .X).value 0
        = .finite false 10485760 (-21)
      ∧ (10485760 : ℚ) * (2 : ℚ) ^ (-21 : Int) = 5
      ∧ (Spec.lines (main envS2).2.outputFile).filter Spec.isCuttingLine
        = ["G1 F0.60 X5.000000 Y5.000000 U5.000000 V5.000000",
           "G1 F0.60 X5.000000 Y5.000000 U5.000000 V5.000000"] := by
  have hbegins : Spec.beginsWith ((preRead envS2).thisVector .Root .Upper .X).inputFile
      [floatOf false 1 10 0] = true := by decide!
  have hlen : (([floatOf false 1 10 0].length : Nat) : Int)
      ≤ ((preRead envS2).thisVector .Root .Upper .X).totalValues := by decide!
  have h := (C11_stored_value_is_rounded_product (preRead envS2) (.Root, .Upper, .X)
    [floatOf false 1 10 0] hbegins hlen).1 0 (floatOf false 1 10 0) rfl
  exact ⟨hbegins, hlen, load_eq_read (by decide!), h.trans (by decide!), by norm_num,
    by decide!⟩

/-- C12: if the Loader succeeds and the eight declared counts are all equal
(the consistency check then emits no warning), the buffer `AllocateMemory`
obtained for each vector has `totalValues` elements, and every array element
`OutputGCode` reads in either cutting loop, for each of the four vectors of a
line, has an index `i` with `0 <= i < totalValues` of the vector read, inside
that buffer: `OutputGCode` with every array read checked against the buffer
read returns what `OutputGCode` returns.  The loop bound taken from
(Tip, half, X) does not exceed the count, nor the capacity, of any vector of
the half.  For every state, the checked emitter returns exactly when every
listed read lies inside its buffer; the listed reads are those with an index
below the loop bound. -/
theorem C12_reads_within_buffers (env : Env) (s : State) (hload : load env = .ok s)
    (heq : Spec.allCountsEqual s.thisVector) :
    (∀ a h d, (s.thisVector a h d).capacity = (s.thisVector a h d).totalValues.toNat)
      ∧ (∀ (k : Spec.Key) (i : Nat), (k, i) ∈ OutputGCodeReads s →
          0 ≤ (i : Int) ∧ (i : Int) < (s.thisVector k.1 k.2.1 k.2.2).totalValues
            ∧ i < (s.thisVector k.1 k.2.1 k.2.2).capacity)
      ∧ OutputGCodeChecked s = some (OutputGCode s)
      ∧ (∀ (a : Side) (h : Half) (d : Dimension),
          (s.thisVector .Tip h .X).totalValues ≤ (s.thisVector a h d).totalValues
            ∧ (s.thisVector .Tip h .X).totalValues.toNat ≤ (s.thisVector a h d).capacity)
      ∧ (∀ (k : Spec.Key) (i : Nat), (k, i) ∈ OutputGCodeReads s
          ↔ (i : Int) < (s.thisVector .Tip k.2.1 .X).totalValues)
      ∧ (∀ t : State,
          ((∀ r ∈ OutputGCodeReads t, Spec.inBuffer t.thisVector r) →
              OutputGCodeChecked t = some (OutputGCode t))
            ∧ (¬ (∀ r ∈ OutputGCodeReads t, Spec.inBuffer t.thisVector r) →
              OutputGCodeChecked t = none))
      ∧ ∃ s0 s1, OpenDataFiles env initState = .ok s0
          ∧ (CheckVectorConsistency s0).stderr = s0.stderr
          ∧ AllocateMemory env (CheckVectorConsistency s0) = .ok s1
          ∧ s = ReadVectorData s1
          ∧ ∀ a h d, ((CheckVectorConsistency s0).thisVector a h d).totalValues
              = (s.thisVector a h d).totalValues := by
  obtain ⟨s0, s1, h0, h1, hs, hcount⟩ := load_stages hload
  have hcap := load_capacity hload
  have hmem : ∀ (k : Spec.Key) (i : Nat), (k, i) ∈ OutputGCodeReads s
      ↔ (i : Int) < (s.thisVector .Tip k.2.1 .X).totalValues := by
    intro k i
    rw [mem_OutputGCodeReads]
    have hpos := (load_ok hload).2 .Tip k.2.1 .X
    omega
  have hin : ∀ (k : Spec.Key) (i : Nat), (k, i) ∈ OutputGCodeReads s →
      0 ≤ (i : Int) ∧ (i : Int) < (s.thisVector k.1 k.2.1 k.2.2).totalValues
        ∧ i < (s.thisVector k.1 k.2.1 k.2.2).capacity := by
    intro k i hk
    have hlt : (i : Int) < (s.thisVector k.1 k.2.1 k.2.2).totalValues := by
      rw [heq k.1 k.2.1 k.2.2 .Tip k.2.1 .X]
      exact (hmem k i).mp hk
    refine ⟨Int.ofNat_nonneg i, hlt, ?_⟩
    rw [hcap]
    omega
  refine ⟨hcap, hin, ?_, ?_, hmem, OutputGCodeChecked_eq, s0, s1, h0, ?_, h1, hs, ?_⟩
  · exact (OutputGCodeChecked_eq s).1 (fun r hr => (hin r.1 r.2 hr).2.2)
  · intro a h d
    refine ⟨le_of_eq (heq _ _ _ _ _ _), ?_⟩
    rw [hcap, heq .Tip h .X a h d]
  · have heq0 : Spec.allCountsEqual s0.thisVector := by
      intro a h d a' h' d'
      rw [hcount, hcount]
      exact heq a h d a' h' d'
    rw [CheckVectorConsistency_of_equal s0 heq0]
  · intro a h d
    rw [(CheckVectorConsistency_frame s0).1]
    exact hcount a h d

set_option maxRecDepth 100000 in
/-- Scenario S1 for C12: the eight counts are 1, every buffer has one element,
and the reads are the index 0 of each of the eight vectors.  With TIPUPPERX
declaring two values and the other files one, the counts are not all equal and
the checked emitter stops at a read outside a buffer. -/
theorem C12_reads_within_buffers_witness :
    load envS1 = .ok (loaded envS1)
      ∧ Spec.allCountsEqual (loaded envS1).thisVector
      ∧ OutputGCodeReads (loaded envS1)
        = [((.Root, .Upper, .X), 0), ((.Root, .Upper, .Y), 0), ((.Tip, .Upper, .X), 0),
           ((.Tip, .Upper, .Y), 0), ((.Root, .Lower, .X), 0), ((.Root, .Lower, .Y), 0),
           ((.Tip, .Lower, .X), 0), ((.Tip, .Lower, .Y), 0)]
      ∧ (∀ (k : Spec.Key) (i : Nat), (k, i) ∈ OutputGCodeReads (loaded envS1) →
          0 ≤ (i : Int) ∧ (i : Int) < ((loaded envS1).thisVector k.1 k.2.1 k.2.2).totalValues
            ∧ i < ((loaded envS1).thisVector k.1 k.2.1 k.2.2).capacity)
      ∧ OutputGCodeChecked (loaded envS1) = some (OutputGCode (loaded envS1))
      ∧ ((loaded envS1).thisVector .Root .Upper .X).capacity = 1
      ∧ loads envLongTip = true
      ∧ ((loaded envLongTip).thisVector .Tip .Upper .X).capacity = 2
      ∧ ((loaded envLongTip).thisVector .Root .Upper .X).capacity = 1
      ∧ (OutputGCodeChecked (loaded envLongTip)).isNone = true :=
  have heq : Spec.allCountsEqual (loaded envS1).thisVector := by
    have h1 : ∀ a h d, ((loaded envS1).thisVector a h d).totalValues = 1 := by
      intro a h d
      cases a <;> cases h <;> cases d <;> decide!
    intro a h d a' h' d'
    rw [h1, h1]
  have h := C12_reads_within_buffers envS1 (loaded envS1) (loads_eq (by decide!)) heq
  ⟨loads_eq (by decide!), heq, by decide!, h.2.1, h.2.2.1, by decide!, by decide!, by decide!,
   by decide!, by decide!⟩

end GCode
